import Mathlib

/-!
Verification development for the slurmdbd charm's configuration machinery
(`src/utils/confeditor.py`, `src/utils/_confeditor.py`, `src/utils/manager.py`,
and the duplicated `_update_defaults` in `src/charm.py`).

Strings are modelled as `List Char` (written via `"...".data` for literals).
Python regular-expression validators are embedded by their `re.match`
semantics, spelled out in comments at each definition.  `\d` is modelled as
the ASCII digits `'0'..'9'`.
-/

set_option autoImplicit false

namespace Slurmdbd

abbrev Str := List Char

/-- ASCII decimal digit test, the model of the regex class `\d`. -/
def isDigitC (c : Char) : Bool := 48 ≤ c.toNat && c.toNat ≤ 57

/-- Length of the maximal leading run of decimal digits of a string. -/
def lcount : Str → Nat
  | [] => 0
  | c :: cs => if isDigitC c then lcount cs + 1 else 0

/-- Decimal digit character for a value below ten (used to model Python `str` on integers). -/
def digitOfNat : Nat → Char
  | 0 => '0'
  | 1 => '1'
  | 2 => '2'
  | 3 => '3'
  | 4 => '4'
  | 5 => '5'
  | 6 => '6'
  | 7 => '7'
  | 8 => '8'
  | _ => '9'

/-- Numeric value of a decimal digit character. -/
def dval (c : Char) : Nat := c.toNat - 48

/-- Digit expansion with structural fuel; `fuel ≥ n` always suffices since the
argument shrinks by a factor of ten each step. -/
def natToStrAux : Nat → Nat → Str
  | 0, n => [digitOfNat n]
  | fuel + 1, n =>
      if n < 10 then [digitOfNat n]
      else natToStrAux fuel (n / 10) ++ [digitOfNat (n % 10)]

/-- Model of Python `str` on a non-negative integer: decimal digits, no sign, no padding. -/
def natToStr (n : Nat) : Str := natToStrAux n n

/-- Model of Python `str` on an `int`: a `-` sign followed by digits for negatives. -/
def intToStr (i : Int) : Str :=
  if i < 0 then '-' :: natToStr i.natAbs else natToStr i.natAbs

/-- Value of a nonempty all-digit string read in base ten. -/
def strToNat (s : Str) : Nat := s.foldl (fun acc c => acc * 10 + dval c) 0

/-- Model of Python `int(...)` applied to a string: an optional sign followed by
at least one decimal digit; `none` models the `ValueError` raised otherwise.
(Surrounding whitespace, underscores and non-ASCII digits are not modelled.) -/
def pyIntOfStr : Str → Option Int
  | [] => none
  | c :: rest =>
      if c = '-' then
        if rest ≠ [] && rest.all isDigitC then some (-(strToNat rest : Int)) else none
      else if c = '+' then
        if rest ≠ [] && rest.all isDigitC then some ((strToNat rest : Int)) else none
      else if (c :: rest).all isDigitC then some ((strToNat (c :: rest) : Int)) else none

/-- Model of Python `line.split("=", 1)`: `none` when the line has no `=`
(`len(line_parts) < 2`), otherwise the part before and after the first `=`. -/
def splitOnceEq : Str → Option (Str × Str)
  | [] => none
  | c :: cs =>
      if c = '=' then some ([], cs)
      else
        match splitOnceEq cs with
        | none => none
        | some (a, b) => some (c :: a, b)

/-- Model of Python `str.split(sep)` for a one-character separator: splits at every
occurrence and keeps empty pieces, so the result is always nonempty. -/
def splitChar (sep : Char) : Str → List Str
  | [] => [[]]
  | c :: cs =>
      match splitChar sep cs with
      | [] => [[]]
      | r :: rs => if c = sep then [] :: r :: rs else (c :: r) :: rs

/-- Model of Python `sep.join(parts)` for a one-character separator. -/
def joinSep (sep : Char) : List Str → Str
  | [] => []
  | [p] => p
  | p :: ps => p ++ sep :: joinSep sep ps

/-- Model of `fout.writelines(f"{i}\n" for i in content)`: every item is written
followed by a newline. -/
def joinNl (ls : List Str) : Str := (ls.map (fun l => l ++ ['\n'])).flatten

/-- Prefix of a string up to (excluding) its first newline. -/
def takeUntilNl (s : Str) : Str := s.takeWhile (fun c => c ≠ '\n')

/-- Does the string start with `#`?  (Model of `line.startswith("#")` and of the
negative lookahead in the comment-dropping regex.) -/
def startsHash : Str → Bool
  | [] => false
  | c :: _ => c == '#'

/-- Model of the regex `_match_no_comment = ^(?!#).*[^\n]$` (MULTILINE) applied with
`re.findall` to a file's text: it yields exactly the nonempty lines that do not
start with `#`, in order. -/
def nonCommentLines (content : Str) : List Str :=
  (splitChar '\n' content).filter (fun l => !l.isEmpty && !startsHash l)

/-- The closed vocabulary `_SlurmdbdToken` of `confeditor.py` (identical to
`SlurmdbdToken` of `_confeditor.py`): one constructor per recognized key. -/
inductive Key where
  | ArchiveDir | ArchiveEvents | ArchiveJobs | ArchiveResvs | ArchiveScript
  | ArchiveSteps | ArchiveSuspend | ArchiveTXN | ArchiveUsage
  | AuthInfo | AuthAltTypes | AuthAltParameters | AuthType
  | CommitDelay | CommunicationParameters
  | DbdBackupHost | DbdAddr | DbdHost | DbdPort
  | DebugFlags | DebugLevel | DebugLevelSyslog | DefaultQOS
  | LogFile | LogTimeFormat | MaxQueryTimeRange | MessageTimeout
  | Parameters | PidFile | PluginDir | PrivateData
  | PurgeEventAfter | PurgeJobAfter | PurgeResvAfter | PurgeStepAfter
  | PurgeSuspendAfter | PurgeTXNAfter | PurgeUsageAfter
  | SlurmUser | StorageHost | StorageBackupHost | StorageLoc
  | StorageParameters | StoragePass | StoragePort | StorageType | StorageUser
  | TCPTimeout | TrackSlurmctldDown | TrackWCKey
  deriving DecidableEq

/-- The enum member's `.value` (which coincides with its attribute name). -/
def keyName : Key → Str
  | .ArchiveDir => ("ArchiveDir").data
  | .ArchiveEvents => ("ArchiveEvents").data
  | .ArchiveJobs => ("ArchiveJobs").data
  | .ArchiveResvs => ("ArchiveResvs").data
  | .ArchiveScript => ("ArchiveScript").data
  | .ArchiveSteps => ("ArchiveSteps").data
  | .ArchiveSuspend => ("ArchiveSuspend").data
  | .ArchiveTXN => ("ArchiveTXN").data
  | .ArchiveUsage => ("ArchiveUsage").data
  | .AuthInfo => ("AuthInfo").data
  | .AuthAltTypes => ("AuthAltTypes").data
  | .AuthAltParameters => ("AuthAltParameters").data
  | .AuthType => ("AuthType").data
  | .CommitDelay => ("CommitDelay").data
  | .CommunicationParameters => ("CommunicationParameters").data
  | .DbdBackupHost => ("DbdBackupHost").data
  | .DbdAddr => ("DbdAddr").data
  | .DbdHost => ("DbdHost").data
  | .DbdPort => ("DbdPort").data
  | .DebugFlags => ("DebugFlags").data
  | .DebugLevel => ("DebugLevel").data
  | .DebugLevelSyslog => ("DebugLevelSyslog").data
  | .DefaultQOS => ("DefaultQOS").data
  | .LogFile => ("LogFile").data
  | .LogTimeFormat => ("LogTimeFormat").data
  | .MaxQueryTimeRange => ("MaxQueryTimeRange").data
  | .MessageTimeout => ("MessageTimeout").data
  | .Parameters => ("Parameters").data
  | .PidFile => ("PidFile").data
  | .PluginDir => ("PluginDir").data
  | .PrivateData => ("PrivateData").data
  | .PurgeEventAfter => ("PurgeEventAfter").data
  | .PurgeJobAfter => ("PurgeJobAfter").data
  | .PurgeResvAfter => ("PurgeResvAfter").data
  | .PurgeStepAfter => ("PurgeStepAfter").data
  | .PurgeSuspendAfter => ("PurgeSuspendAfter").data
  | .PurgeTXNAfter => ("PurgeTXNAfter").data
  | .PurgeUsageAfter => ("PurgeUsageAfter").data
  | .SlurmUser => ("SlurmUser").data
  | .StorageHost => ("StorageHost").data
  | .StorageBackupHost => ("StorageBackupHost").data
  | .StorageLoc => ("StorageLoc").data
  | .StorageParameters => ("StorageParameters").data
  | .StoragePass => ("StoragePass").data
  | .StoragePort => ("StoragePort").data
  | .StorageType => ("StorageType").data
  | .StorageUser => ("StorageUser").data
  | .TCPTimeout => ("TCPTimeout").data
  | .TrackSlurmctldDown => ("TrackSlurmctldDown").data
  | .TrackWCKey => ("TrackWCKey").data

/-- All members of the enumeration, in declaration order. -/
def allKeys : List Key :=
  [.ArchiveDir, .ArchiveEvents, .ArchiveJobs, .ArchiveResvs, .ArchiveScript,
   .ArchiveSteps, .ArchiveSuspend, .ArchiveTXN, .ArchiveUsage,
   .AuthInfo, .AuthAltTypes, .AuthAltParameters, .AuthType,
   .CommitDelay, .CommunicationParameters,
   .DbdBackupHost, .DbdAddr, .DbdHost, .DbdPort,
   .DebugFlags, .DebugLevel, .DebugLevelSyslog, .DefaultQOS,
   .LogFile, .LogTimeFormat, .MaxQueryTimeRange, .MessageTimeout,
   .Parameters, .PidFile, .PluginDir, .PrivateData,
   .PurgeEventAfter, .PurgeJobAfter, .PurgeResvAfter, .PurgeStepAfter,
   .PurgeSuspendAfter, .PurgeTXNAfter, .PurgeUsageAfter,
   .SlurmUser, .StorageHost, .StorageBackupHost, .StorageLoc,
   .StorageParameters, .StoragePass, .StoragePort, .StorageType, .StorageUser,
   .TCPTimeout, .TrackSlurmctldDown, .TrackWCKey]

/-- Model of `hasattr(_SlurmdbdToken, token_name)` / `getattr` on the member names
of the closed enumeration.  Python's `hasattr` on the Enum class is also `True`
for the attributes the class inherits from `type`, `object`, `Enum` and its
metaclass (e.g. `mro`, `__members__`, `__doc__`, `_member_map_`), and
`_parse_token` then stores the fetched attribute object instead of raising; that
leak is not modelled here.  Every such inherited name either is exactly `mro` or
begins with an underscore (`enumClassAttrShape` below), while the `name`/`value`
descriptors raise on class access and are invisible to `hasattr`; so for a name
outside that shape `hasattr` holds exactly when the name is an enum member, and
this membership model is exact.  Theorems that rely on the unrecognized-key
error path restrict their files to keys outside the shape. -/
def tokenOfName (name : Str) : Option Key :=
  allKeys.find? (fun k => keyName k == name)

/-- Shape of the attribute names `hasattr` can find on the enum class beyond its
members: each such inherited name either is exactly `mro` (from `type`) or
begins with an underscore (dunder and sunder names).  A key outside this shape
is an attribute of `_SlurmdbdToken` precisely when it is one of the 50 members. -/
def enumClassAttrShape (name : Str) : Bool :=
  name == ("mro").data ||
    (match name with
     | [] => false
     | c :: _ => c == '_')

/-- Is the key part of a `key=value` line outside the inherited-attribute shape?
Lines without `=` have no key and pass vacuously. -/
def lineKeyShapeOk (l : Str) : Bool :=
  match splitOnceEq l with
  | some (a, _) => !enumClassAttrShape a
  | none => true

/-- A value stored in the editor's `_metadata` dictionary.  The setters store
strings for most keys but keep the raw `int` for the port and timeout keys;
`dump` renders either with an f-string. -/
inductive V where
  | str (s : Str)
  | int (i : Int)
  deriving DecidableEq

/-- Model of Python `f"...{v}..."` interpolation of a stored value. -/
def render : V → Str
  | .str s => s
  | .int i => intToStr i

/-- Error outcomes of editor operations.  `unrecognized` and `invalidValue` are the
editor's own `Error`; `typeErr` models the builtin `TypeError` raised by
`dict.update(None)`; `keyErr` models the builtin `KeyError` of `del`. -/
inductive ConfErr where
  | unrecognized (name : Str)
  | invalidValue
  | typeErr
  | keyErr
  deriving DecidableEq

/-- Is this error the editor's own declared `Error` class (as opposed to a
builtin `TypeError`/`KeyError`)? -/
def ConfErr.isEditorError : ConfErr → Bool
  | .unrecognized _ => true
  | .invalidValue => true
  | .typeErr => false
  | .keyErr => false

/-- The in-memory document: the `_metadata` dict, modelled as an insertion-ordered
association list with (by construction) at most one entry per key. -/
abbrev Doc := List (Key × V)

/-- Model of `dict.__setitem__`: overwrite in place if the key is present,
otherwise append at the end. -/
def docInsert : Doc → Key → V → Doc
  | [], k, v => [(k, v)]
  | (k', v') :: rest, k, v =>
      if k' = k then (k, v) :: rest else (k', v') :: docInsert rest k v

/-- Model of `dict.get(k, None)`. -/
def docLookup : Doc → Key → Option V
  | [], _ => none
  | (k', v') :: rest, k => if k' = k then some v' else docLookup rest k

/-- Model of `k in dict`. -/
def docHasKey (d : Doc) (k : Key) : Bool := (docLookup d k).isSome

/-- Model of `del dict[k]` for a present key: remove its entry, keep the rest. -/
def docErase (d : Doc) (k : Key) : Doc := d.filter (fun kv => kv.1 ≠ k)

/-- Model of `re.match` for the validator patterns of shape `(?<!.)(alt1|...|altN)(?!.)`:
`match` anchors at position 0 where the lookbehind `(?<!.)` always holds, so the
pattern succeeds iff some alternative is a prefix of the input whose following
character, if any, is a newline (the only character `.` does not match, so the
lookahead `(?!.)` holds exactly at end of input or before `\n`). -/
def headAlt (alts : List Str) (s : Str) : Bool :=
  alts.any (fun a => a.isPrefixOf s &&
    (match s.drop a.length with
     | [] => true
     | c :: _ => c == '\n'))

/-- Model of `_check_auth_type` (regex `(?<!.)auth/munge(?!.)`): `none` means the
check passed, `some` the raised `Error`. -/
def check_auth_type (s : Str) : Option ConfErr :=
  if headAlt [("auth/munge").data] s then none else some .invalidValue

/-- Alternatives of `_match_bool`. -/
def boolAlts : List Str := [("yes").data, ("no").data]

/-- String half of `_check_bool` (regex `(?<!.)(yes|no)(?!.)`); the `bool` half of
the `Union[str, bool]` argument is accepted unconditionally by the setters. -/
def check_bool_str (s : Str) : Option ConfErr :=
  if headAlt boolAlts s then none else some .invalidValue

/-- Alternatives of `_match_debug_flag`. -/
def debugFlagAlts : List Str :=
  [("DB_ARCHIVE").data, ("DB_ASSOC").data, ("DB_EVENT").data, ("DB_JOB").data,
   ("DB_QOS").data, ("DB_QUERY").data, ("DB_RESERVATION").data, ("DB_RESOURCE").data,
   ("DB_STEP").data, ("DB_TRES").data, ("DB_USAGE").data, ("DB_WCKEY").data,
   ("FEDERATION").data]

/-- Model of `_check_debug_flag`. -/
def check_debug_flag (s : Str) : Option ConfErr :=
  if headAlt debugFlagAlts s then none else some .invalidValue

/-- Alternatives of `_match_debug_level`. -/
def debugLevelAlts : List Str :=
  [("quiet").data, ("fatal").data, ("error").data, ("info").data, ("verbose").data,
   ("debug").data, ("debug2").data, ("debug3").data, ("debug4").data, ("debug5").data]

/-- Model of `_check_debug_level`. -/
def check_debug_level (s : Str) : Option ConfErr :=
  if headAlt debugLevelAlts s then none else some .invalidValue

/-- Alternatives of `_match_log_time_format`. -/
def logTimeAlts : List Str :=
  [("iso8601").data, ("iso8601_ms").data, ("rfc5424").data, ("rfc5424_ms").data,
   ("clock").data, ("short").data]

/-- Model of `_check_log_time_format`. -/
def check_log_time_format (s : Str) : Option ConfErr :=
  if headAlt logTimeAlts s then none else some .invalidValue

/-- Model of `_check_password` (`re.findall("#", password)` nonempty fails): the
password may not contain `#` anywhere. -/
def check_password (s : Str) : Option ConfErr :=
  if s.any (fun c => c == '#') then some .invalidValue else none

/-- Model of one alternative `\d{k}(?!\d)` of the port regex at position 0: the
first `k` characters exist and are digits and the next character, if any, is not
a digit. -/
def digitsThen (s : Str) (k : Nat) : Bool :=
  decide (k ≤ s.length) && (s.take k).all isDigitC &&
    (match s.drop k with
     | [] => true
     | c :: _ => !isDigitC c)

/-- Model of `_match_port_num.match` (regex `(?<!\d)\d{1,5}(?!\d)` via `re.match`):
at position 0 the lookbehind holds, and backtracking over the counted repetition
succeeds iff `\d{k}(?!\d)` does for some `k` between 1 and 5.  Note the pattern is
not anchored at the end of the string. -/
def match_port_num (s : Str) : Bool := [1, 2, 3, 4, 5].any (digitsThen s)

/-- Model of `_check_port_num(port_number)`: applies the port regex to
`str(port_number)` (the argument is annotated `int` but any value with a string
form is accepted by the function itself). -/
def check_port_num (v : V) : Option ConfErr :=
  if match_port_num (render v) then none else some .invalidValue

/-- Alternatives of `_match_private_data`. -/
def privateDataAlts : List Str :=
  [("accounts").data, ("events").data, ("jobs").data, ("reservations").data,
   ("usage").data, ("users").data]

/-- Model of `_check_private_data`. -/
def check_private_data (s : Str) : Option ConfErr :=
  if headAlt privateDataAlts s then none else some .invalidValue

/-- Model of `_check_storage_type` (regex `(?<!.)(accounting_storage/mysql)(?!.)`). -/
def check_storage_type (s : Str) : Option ConfErr :=
  if headAlt [("accounting_storage/mysql").data] s then none else some .invalidValue

/-- Exact-body match of `\d+(hour|day|month)`: a nonempty maximal digit run
followed by exactly one of the units (no unit starts with a digit, so greedy
`\d+` with backtracking is equivalent to the maximal run). -/
def timeBody (s : Str) : Bool :=
  let ds := s.takeWhile isDigitC
  let rest := s.drop ds.length
  !ds.isEmpty && [("hour").data, ("day").data, ("month").data].any (fun u => rest == u)

/-- Model of `_match_time_format.match` (regex `^\d+(hour|day|month)$`): without
`re.MULTILINE`, `$` matches at the end of the string or just before one final
trailing newline, so the whole string (or the string minus one trailing `\n`)
must be digits followed by a unit. -/
def match_time_format (s : Str) : Bool :=
  timeBody s || (s.getLast? == some '\n' && timeBody s.dropLast)

/-- Model of `_check_time_format`. -/
def check_time_format (s : Str) : Option ConfErr :=
  if match_time_format s then none else some .invalidValue

/-- Is the string nonempty and all decimal digits (a `\d+` body)? -/
def digits1 (s : Str) : Bool := !s.isEmpty && s.all isDigitC

/-- Exact match of one alternative of the query range regex
`\d+-\d+:\d+:\d+|\d+-\d+|\d+:\d+:\d+|\d+:\d+|INFINITE` against a whole string:
since `\d+` never contains `-` or `:`, splitting on those characters decides the
alternation. -/
def queryBody (s : Str) : Bool :=
  s == ("INFINITE").data ||
    (match splitChar '-' s with
     | [a, b] =>
         digits1 a &&
           (match splitChar ':' b with
            | [x] => digits1 x
            | [x, y, z] => digits1 x && digits1 y && digits1 z
            | _ => false)
     | [a] =>
         (match splitChar ':' a with
          | [x, y] => digits1 x && digits1 y
          | [x, y, z] => digits1 x && digits1 y && digits1 z
          | _ => false)
     | _ => false)

/-- Model of `_match_query_time_format.match` (pattern `(?<!.)(...)(?!.)`): as with
`headAlt`, a match must start at position 0 and end at the end of the input or just
before a newline; no alternative contains `\n`, so the pattern succeeds iff the
prefix up to the first newline is exactly one alternative. -/
def check_query_time_format (s : Str) : Option ConfErr :=
  if queryBody (takeUntilNl s) then none else some .invalidValue

/-- Loop of `_parse_token`: pop characters off the front of the queue, collecting
them in `processed`, until the first `=`; then look the collected name up in the
token enumeration, returning `{token: remainder}` on success and raising `Error`
otherwise.  If the queue empties without meeting `=`, the function falls off the
end of its `while` and returns Python `None`, modelled as `.ok none`.  The
lookup models `hasattr` on the member names; see `tokenOfName` and
`enumClassAttrShape` for the inherited-attribute boundary of that model. -/
def parse_token_go (processed : Str) : Str → Except ConfErr (Option (Key × Str))
  | [] => .ok none
  | c :: rest =>
      if c = '=' then
        match tokenOfName processed with
        | some k => .ok (some (k, rest))
        | none => .error (.unrecognized processed)
      else parse_token_go (processed ++ [c]) rest

/-- Model of `_parse_token` of `confeditor.py` (textually identical to
`parse_token` of `_confeditor.py`). -/
def parse_token (token : Str) : Except ConfErr (Option (Key × Str)) :=
  parse_token_go [] token

/-- Loop of `SlurmdbdConfEditor._scan` (`confeditor.py`): starting from a fresh
`result_store = {}`, pop each lexeme and `result_store.update(_parse_token(lexeme))`.
A recognized `key=value` token updates the store (last occurrence wins); an
unrecognized key propagates the raised `Error`; a lexeme without `=` makes
`_parse_token` return `None`, and `dict.update(None)` raises `TypeError`. -/
def scan_go (store : Doc) : List Str → Except ConfErr Doc
  | [] => .ok store
  | lex :: rest =>
      match parse_token lex with
      | .error e => .error e
      | .ok none => .error .typeErr
      | .ok (some (k, v)) => scan_go (docInsert store k (.str v)) rest

/-- Model of `SlurmdbdConfEditor._scan` applied to the queue of lexemes. -/
def scan (lexemes : List Str) : Except ConfErr Doc := scan_go [] lexemes

/-- Model of `SlurmdbdConfEditor.load` (`confeditor.py`) as a state transformer on
the in-memory document: scan the non-comment lines of the file's text; on success
`self._metadata = parsed_data` (the `parsed_data is None` branch is dead, since
`_scan` always returns a dict), on a raised exception `_metadata` is untouched. -/
def loadRun (content : Str) (doc : Doc) : Doc × Option ConfErr :=
  match scan (nonCommentLines content) with
  | .ok parsed => (parsed, none)
  | .error e => (doc, some e)

/-- Model of `SlurmdbdConfEditor.dump`: the file's new text is a three-line banner
(`#`, `# <path> generated at <timestamp>`, `#`) followed by one `Key=Value` item
per entry of `_metadata` in dict order, each written with a trailing newline. -/
def dumpContent (doc : Doc) (path ts : Str) : Str :=
  joinNl
    ([("#").data, ("# ").data ++ path ++ (" generated at ").data ++ ts, ("#").data] ++
      doc.map (fun kv => keyName kv.1 ++ '=' :: render kv.2))

/-- The `Key=Value` item `dump` writes for one document entry. -/
def entryLine (kv : Key × V) : Str := keyName kv.1 ++ '=' :: render kv.2

/-- The three banner items `dump` writes before the entries. -/
def bannerLines (path ts : Str) : List Str :=
  [("#").data, ("# ").data ++ path ++ (" generated at ").data ++ ts, ("#").data]

/-- The lines of a file's text (Python `str.splitlines` for `\n`-separated text):
split on every newline, not counting a final newline as starting one more line. -/
def linesOf (s : Str) : List Str :=
  if (splitChar '\n' s).getLast? = some [] then (splitChar '\n' s).dropLast
  else splitChar '\n' s

/-- Model of `dump` followed by `load` on a fresh editor over the same path: the
fresh editor starts with an empty `_metadata` and `load()`s the just-written file. -/
def dumpThenLoad (doc : Doc) (path ts : Str) : Doc × Option ConfErr :=
  loadRun (dumpContent doc path ts) []

/-- Model of every typed deleter of `confeditor.py`: each `@X.deleter` is exactly
`del self._metadata[tok]` for its token, which removes the entry when present and
raises the builtin `KeyError` when absent. -/
def tokenDelete (tok : Key) (d : Doc) : Doc × Option ConfErr :=
  if docHasKey d tok then (docErase d tok, none) else (d, some .keyErr)

/-- Input of the boolean-like setters, Python's `Union[str, bool]`. -/
abbrev BV := Sum Bool Str

/-- Input of the list-valued setters, Python's `Union[str, List[str]]`. -/
abbrev LV := Sum Str (List Str)

/-- Model of `value = [value] if isinstance(value, str) else value`. -/
def promote : LV → List Str
  | .inl s => [s]
  | .inr xs => xs

/-- Model of `"yes" if value is True else "no" if value is False else value`. -/
def boolToStore : BV → Str
  | .inl true => ("yes").data
  | .inl false => ("no").data
  | .inr s => s

/-- Model of `_check_bool` on the full `Union[str, bool]` argument: `True`/`False`
return immediately, strings go through the `(?<!.)(yes|no)(?!.)` regex. -/
def check_bool (v : BV) : Option ConfErr :=
  match v with
  | .inl _ => none
  | .inr s => check_bool_str s

/-- Setter with no validator storing the value verbatim (e.g. `archive_dir`). -/
def setPlain (tok : Key) (d : Doc) (v : Str) : Doc × Option ConfErr :=
  (docInsert d tok (.str v), none)

/-- Setter running a validator before storing the string verbatim. -/
def setChecked (check : Str → Option ConfErr) (tok : Key) (d : Doc) (v : Str) :
    Doc × Option ConfErr :=
  match check v with
  | some e => (d, some e)
  | none => (docInsert d tok (.str v), none)

/-- Boolean-like setter with `_check_bool` (e.g. `archive_events`). -/
def setBool (tok : Key) (d : Doc) (v : BV) : Doc × Option ConfErr :=
  match check_bool v with
  | some e => (d, some e)
  | none => (docInsert d tok (.str (boolToStore v)), none)

/-- Boolean-like setter without any validator (only `archive_txn`). -/
def setBoolNoCheck (tok : Key) (d : Doc) (v : BV) : Doc × Option ConfErr :=
  (docInsert d tok (.str (boolToStore v)), none)

/-- Integer setter with no validator, storing the raw `int` (e.g. `commit_delay`). -/
def setInt (tok : Key) (d : Doc) (v : Int) : Doc × Option ConfErr :=
  (docInsert d tok (.int v), none)

/-- Port setter: `_check_port_num(value)` then store the raw `int`. -/
def setPort (tok : Key) (d : Doc) (v : Int) : Doc × Option ConfErr :=
  match check_port_num (.int v) with
  | some e => (d, some e)
  | none => (docInsert d tok (.int v), none)

/-- List setter with no per-element validator: promote a lone string to a
singleton and store the delimiter-joined string. -/
def setList (sep : Char) (tok : Key) (d : Doc) (v : LV) : Doc × Option ConfErr :=
  (docInsert d tok (.str (joinSep sep (promote v))), none)

/-- List setter validating each element before joining (e.g. `debug_flags`). -/
def setListChecked (check : Str → Option ConfErr) (sep : Char) (tok : Key) (d : Doc)
    (v : LV) : Doc × Option ConfErr :=
  match (promote v).findSome? check with
  | some e => (d, some e)
  | none => (docInsert d tok (.str (joinSep sep (promote v))), none)

/-- Parameter-list setter: store `",".join(f"{i[0]}={i[1]}" for i in value)`.
Inner lists are modelled as pairs (the source indexes only `i[0]` and `i[1]`). -/
def setPairs (tok : Key) (d : Doc) (v : List (Str × Str)) : Doc × Option ConfErr :=
  (docInsert d tok (.str (joinSep ',' (v.map (fun pr => pr.1 ++ '=' :: pr.2)))), none)

/-- Model of the setter of `archive_dir`. -/
def archive_dir_set (d : Doc) (v : Str) := setPlain .ArchiveDir d v

/-- Model of the setter of `archive_events`. -/
def archive_events_set (d : Doc) (v : BV) := setBool .ArchiveEvents d v

/-- Model of the setter of `archive_jobs`. -/
def archive_jobs_set (d : Doc) (v : BV) := setBool .ArchiveJobs d v

/-- Model of the setter of `archive_resvs`. -/
def archive_resvs_set (d : Doc) (v : BV) := setBool .ArchiveResvs d v

/-- Model of the setter of `archive_script`. -/
def archive_script_set (d : Doc) (v : Str) := setPlain .ArchiveScript d v

/-- Model of the setter of `archive_steps`. -/
def archive_steps_set (d : Doc) (v : BV) := setBool .ArchiveSteps d v

/-- Model of the setter of `archive_suspend`. -/
def archive_suspend_set (d : Doc) (v : BV) := setBool .ArchiveSuspend d v

/-- Model of the setter of `archive_txn`: unlike the other boolean-like setters it
runs no `_check_bool`. -/
def archive_txn_set (d : Doc) (v : BV) := setBoolNoCheck .ArchiveTXN d v

/-- Model of the setter of `archive_usage`. -/
def archive_usage_set (d : Doc) (v : BV) := setBool .ArchiveUsage d v

/-- Model of the setter of `auth_info`. -/
def auth_info_set (d : Doc) (v : Str) := setPlain .AuthInfo d v

/-- Model of the setter of `auth_alt_types` (comma-joined, no validator). -/
def auth_alt_types_set (d : Doc) (v : LV) := setList ',' .AuthAltTypes d v

/-- Model of the setter of `auth_alt_parameters`. -/
def auth_alt_parameters_set (d : Doc) (v : List (Str × Str)) :=
  setPairs .AuthAltParameters d v

/-- Model of the setter of `auth_type` (`_check_auth_type`). -/
def auth_type_set (d : Doc) (v : Str) := setChecked check_auth_type .AuthType d v

/-- Model of the setter of `commit_delay` (no validator, stores the raw `int`). -/
def commit_delay_set (d : Doc) (v : Int) := setInt .CommitDelay d v

/-- Model of the setter of `communication_parameters`. -/
def communication_parameters_set (d : Doc) (v : LV) :=
  setList ',' .CommunicationParameters d v

/-- Model of the setter of `dbd_backup_host`. -/
def dbd_backup_host_set (d : Doc) (v : Str) := setPlain .DbdBackupHost d v

/-- Model of the setter of `dbd_addr`. -/
def dbd_addr_set (d : Doc) (v : Str) := setPlain .DbdAddr d v

/-- Model of the setter of `dbd_host`. -/
def dbd_host_set (d : Doc) (v : Str) := setPlain .DbdHost d v

/-- Model of the setter of `dbd_port` (`_check_port_num`). -/
def dbd_port_set (d : Doc) (v : Int) := setPort .DbdPort d v

/-- Model of the setter of `debug_flags` (each flag validated). -/
def debug_flags_set (d : Doc) (v : LV) :=
  setListChecked check_debug_flag ',' .DebugFlags d v

/-- Model of the setter of `debug_level` (`_check_debug_level`). -/
def debug_level_set (d : Doc) (v : Str) := setChecked check_debug_level .DebugLevel d v

/-- Model of the setter of `debug_level_syslog` (`_check_debug_level`). -/
def debug_level_syslog_set (d : Doc) (v : Str) :=
  setChecked check_debug_level .DebugLevelSyslog d v

/-- Model of the setter of `default_qos`. -/
def default_qos_set (d : Doc) (v : Str) := setPlain .DefaultQOS d v

/-- Model of the setter of `log_file`. -/
def log_file_set (d : Doc) (v : Str) := setPlain .LogFile d v

/-- Model of the setter of `log_time_format` (`_check_log_time_format`). -/
def log_time_format_set (d : Doc) (v : Str) :=
  setChecked check_log_time_format .LogTimeFormat d v

/-- Model of the setter of `max_query_time_range` (`_check_query_time_format`). -/
def max_query_time_range_set (d : Doc) (v : Str) :=
  setChecked check_query_time_format .MaxQueryTimeRange d v

/-- Model of the setter of `message_timeout` (no validator, raw `int`). -/
def message_timeout_set (d : Doc) (v : Int) := setInt .MessageTimeout d v

/-- Model of the setter of `parameters` (comma-joined, no validator). -/
def parameters_set (d : Doc) (v : LV) := setList ',' .Parameters d v

/-- Model of the setter of `pid_file`. -/
def pid_file_set (d : Doc) (v : Str) := setPlain .PidFile d v

/-- Model of the setter of `plugin_dir` (colon-joined, no validator). -/
def plugin_dir_set (d : Doc) (v : LV) := setList ':' .PluginDir d v

/-- Model of the setter of `private_data` (each entry validated). -/
def private_data_set (d : Doc) (v : LV) :=
  setListChecked check_private_data ',' .PrivateData d v

/-- Model of the setter of `purge_event_after` (`_check_time_format`). -/
def purge_event_after_set (d : Doc) (v : Str) :=
  setChecked check_time_format .PurgeEventAfter d v

/-- Model of the setter of `purge_job_after` (`_check_time_format`). -/
def purge_job_after_set (d : Doc) (v : Str) :=
  setChecked check_time_format .PurgeJobAfter d v

/-- Model of the setter of `purge_resv_after` (`_check_time_format`). -/
def purge_resv_after_set (d : Doc) (v : Str) :=
  setChecked check_time_format .PurgeResvAfter d v

/-- Model of the setter of `purge_step_after` (`_check_time_format`). -/
def purge_step_after_set (d : Doc) (v : Str) :=
  setChecked check_time_format .PurgeStepAfter d v

/-- Model of the setter of `purge_suspend_after` (`_check_time_format`). -/
def purge_suspend_after_set (d : Doc) (v : Str) :=
  setChecked check_time_format .PurgeSuspendAfter d v

/-- Model of the setter of `purge_txn_after` (`_check_time_format`). -/
def purge_txn_after_set (d : Doc) (v : Str) :=
  setChecked check_time_format .PurgeTXNAfter d v

/-- Model of the setter of `purge_usage_after` (`_check_time_format`). -/
def purge_usage_after_set (d : Doc) (v : Str) :=
  setChecked check_time_format .PurgeUsageAfter d v

/-- Model of the setter of `slurm_user`. -/
def slurm_user_set (d : Doc) (v : Str) := setPlain .SlurmUser d v

/-- Model of the setter of `storage_host`. -/
def storage_host_set (d : Doc) (v : Str) := setPlain .StorageHost d v

/-- Model of the setter of `storage_backup_host`. -/
def storage_backup_host_set (d : Doc) (v : Str) := setPlain .StorageBackupHost d v

/-- Model of the setter of `storage_loc`. -/
def storage_loc_set (d : Doc) (v : Str) := setPlain .StorageLoc d v

/-- Model of the setter of `storage_parameters`. -/
def storage_parameters_set (d : Doc) (v : List (Str × Str)) :=
  setPairs .StorageParameters d v

/-- Model of the setter of `storage_pass` (`_check_password`). -/
def storage_pass_set (d : Doc) (v : Str) := setChecked check_password .StoragePass d v

/-- Model of the setter of `storage_port` (`_check_port_num`). -/
def storage_port_set (d : Doc) (v : Int) := setPort .StoragePort d v

/-- Model of the setter of `storage_type` (`_check_storage_type`). -/
def storage_type_set (d : Doc) (v : Str) :=
  setChecked check_storage_type .StorageType d v

/-- Model of the setter of `storage_user`. -/
def storage_user_set (d : Doc) (v : Str) := setPlain .StorageUser d v

/-- Model of the setter of `tcp_timeout` (no validator, raw `int`). -/
def tcp_timeout_set (d : Doc) (v : Int) := setInt .TCPTimeout d v

/-- Model of the setter of `track_slurmctld_down`. -/
def track_slurmctld_down_set (d : Doc) (v : BV) := setBool .TrackSlurmctldDown d v

/-- Model of the setter of `track_wc_key`. -/
def track_wc_key_set (d : Doc) (v : BV) := setBool .TrackWCKey d v

/-- Getter returning the stored value unconverted (`self._metadata.get(tok, None)`). -/
def getPlain (tok : Key) (d : Doc) : Option V := docLookup d tok

/-- Boolean-like getter: `True` if the stored value equals `"yes"`, `False` if it
equals `"no"`, otherwise `None` (absence and any other stored value fall through). -/
def getBool (tok : Key) (d : Doc) : Option Bool :=
  match docLookup d tok with
  | some (.str s) => if s = ("yes").data then some true
      else if s = ("no").data then some false else none
  | _ => none

/-- Integer getter: `None` when absent, otherwise `int(stored)`; `.error ()` models
the `ValueError` Python `int` raises on a malformed stored string. -/
def getInt (tok : Key) (d : Doc) : Except Unit (Option Int) :=
  match docLookup d tok with
  | none => .ok none
  | some (.int n) => .ok (some n)
  | some (.str s) =>
      match pyIntOfStr s with
      | some n => .ok (some n)
      | none => .error ()

/-- List getter: `None` when absent, otherwise `stored.split(sep)`; `.error ()`
models the `AttributeError` when the stored value is not a string. -/
def getList (sep : Char) (tok : Key) (d : Doc) : Except Unit (Option (List Str)) :=
  match docLookup d tok with
  | none => .ok none
  | some (.str s) => .ok (some (splitChar sep s))
  | some (.int _) => .error ()

/-- Parameter-list getter body: `[item.split("=") for item in data.split(",")]`. -/
def pairsOfStored (s : Str) : List (List Str) :=
  (splitChar ',' s).map (splitChar '=')

/-- Parameter-list getter with the normal `None` guard (`auth_alt_parameters`). -/
def getPairs (tok : Key) (d : Doc) : Except Unit (Option (List (List Str))) :=
  match docLookup d tok with
  | none => .ok none
  | some (.str s) => .ok (some (pairsOfStored s))
  | some (.int _) => .error ()

/-- Model of the getter of `archive_dir`. -/
def archive_dir_get (d : Doc) := getPlain .ArchiveDir d

/-- Model of the getter of `archive_events`. -/
def archive_events_get (d : Doc) := getBool .ArchiveEvents d

/-- Model of the getter of `archive_jobs`. -/
def archive_jobs_get (d : Doc) := getBool .ArchiveJobs d

/-- Model of the getter of `archive_resvs`. -/
def archive_resvs_get (d : Doc) := getBool .ArchiveResvs d

/-- Model of the getter of `archive_script`. -/
def archive_script_get (d : Doc) := getPlain .ArchiveScript d

/-- Model of the getter of `archive_steps`. -/
def archive_steps_get (d : Doc) := getBool .ArchiveSteps d

/-- Model of the getter of `archive_suspend`. -/
def archive_suspend_get (d : Doc) := getBool .ArchiveSuspend d

/-- Model of the getter of `archive_txn`. -/
def archive_txn_get (d : Doc) := getBool .ArchiveTXN d

/-- Model of the getter of `archive_usage`. -/
def archive_usage_get (d : Doc) := getBool .ArchiveUsage d

/-- Model of the getter of `auth_info`. -/
def auth_info_get (d : Doc) := getPlain .AuthInfo d

/-- Model of the getter of `auth_alt_types`. -/
def auth_alt_types_get (d : Doc) := getList ',' .AuthAltTypes d

/-- Model of the getter of `auth_alt_parameters`. -/
def auth_alt_parameters_get (d : Doc) := getPairs .AuthAltParameters d

/-- Model of the getter of `auth_type`. -/
def auth_type_get (d : Doc) := getPlain .AuthType d

/-- Model of the getter of `commit_delay`. -/
def commit_delay_get (d : Doc) := getInt .CommitDelay d

/-- Model of the getter of `communication_parameters`. -/
def communication_parameters_get (d : Doc) := getList ',' .CommunicationParameters d

/-- Model of the getter of `dbd_backup_host`. -/
def dbd_backup_host_get (d : Doc) := getPlain .DbdBackupHost d

/-- Model of the getter of `dbd_addr`. -/
def dbd_addr_get (d : Doc) := getPlain .DbdAddr d

/-- Model of the getter of `dbd_host`. -/
def dbd_host_get (d : Doc) := getPlain .DbdHost d

/-- Model of the getter of `dbd_port`. -/
def dbd_port_get (d : Doc) := getInt .DbdPort d

/-- Model of the getter of `debug_flags`. -/
def debug_flags_get (d : Doc) := getList ',' .DebugFlags d

/-- Model of the getter of `debug_level`. -/
def debug_level_get (d : Doc) := getPlain .DebugLevel d

/-- Model of the getter of `debug_level_syslog`. -/
def debug_level_syslog_get (d : Doc) := getPlain .DebugLevelSyslog d

/-- Model of the getter of `default_qos`. -/
def default_qos_get (d : Doc) := getPlain .DefaultQOS d

/-- Model of the getter of `log_file`. -/
def log_file_get (d : Doc) := getPlain .LogFile d

/-- Model of the getter of `log_time_format`. -/
def log_time_format_get (d : Doc) := getPlain .LogTimeFormat d

/-- Model of the getter of `max_query_time_range`. -/
def max_query_time_range_get (d : Doc) := getPlain .MaxQueryTimeRange d

/-- Model of the getter of `message_timeout`. -/
def message_timeout_get (d : Doc) := getInt .MessageTimeout d

/-- Model of the getter of `parameters`. -/
def parameters_get (d : Doc) := getList ',' .Parameters d

/-- Model of the getter of `pid_file`. -/
def pid_file_get (d : Doc) := getPlain .PidFile d

/-- Model of the getter of `plugin_dir` (split on `:`). -/
def plugin_dir_get (d : Doc) := getList ':' .PluginDir d

/-- Model of the getter of `private_data`. -/
def private_data_get (d : Doc) := getList ',' .PrivateData d

/-- Model of the getter of `purge_event_after`. -/
def purge_event_after_get (d : Doc) := getPlain .PurgeEventAfter d

/-- Model of the getter of `purge_job_after`. -/
def purge_job_after_get (d : Doc) := getPlain .PurgeJobAfter d

/-- Model of the getter of `purge_resv_after`. -/
def purge_resv_after_get (d : Doc) := getPlain .PurgeResvAfter d

/-- Model of the getter of `purge_step_after`. -/
def purge_step_after_get (d : Doc) := getPlain .PurgeStepAfter d

/-- Model of the getter of `purge_suspend_after`. -/
def purge_suspend_after_get (d : Doc) := getPlain .PurgeSuspendAfter d

/-- Model of the getter of `purge_txn_after`. -/
def purge_txn_after_get (d : Doc) := getPlain .PurgeTXNAfter d

/-- Model of the getter of `purge_usage_after`. -/
def purge_usage_after_get (d : Doc) := getPlain .PurgeUsageAfter d

/-- Model of the getter of `slurm_user`. -/
def slurm_user_get (d : Doc) := getPlain .SlurmUser d

/-- Model of the getter of `storage_host`. -/
def storage_host_get (d : Doc) := getPlain .StorageHost d

/-- Model of the getter of `storage_backup_host`. -/
def storage_backup_host_get (d : Doc) := getPlain .StorageBackupHost d

/-- Model of the getter of `storage_loc`. -/
def storage_loc_get (d : Doc) := getPlain .StorageLoc d

/-- Model of the getter of `storage_parameters`.  The source guard
`if (data := self._metadata.get(...), None) is None` compares a two-element
tuple with `None`, which is never true, so the `else` branch always runs:
when the key is absent `data` is `None` and `data.split(",")` raises
`AttributeError`, modelled as `.error ()`. -/
def storage_parameters_get (d : Doc) : Except Unit (List (List Str)) :=
  match docLookup d .StorageParameters with
  | none => .error ()
  | some (.str s) => .ok (pairsOfStored s)
  | some (.int _) => .error ()

/-- Model of the getter of `storage_pass`. -/
def storage_pass_get (d : Doc) := getPlain .StoragePass d

/-- Model of the getter of `storage_port`. -/
def storage_port_get (d : Doc) := getInt .StoragePort d

/-- Model of the getter of `storage_type`. -/
def storage_type_get (d : Doc) := getPlain .StorageType d

/-- Model of the getter of `storage_user`. -/
def storage_user_get (d : Doc) := getPlain .StorageUser d

/-- Model of the getter of `tcp_timeout`. -/
def tcp_timeout_get (d : Doc) := getInt .TCPTimeout d

/-- Model of the getter of `track_slurmctld_down`. -/
def track_slurmctld_down_get (d : Doc) := getBool .TrackSlurmctldDown d

/-- Model of the getter of `track_wc_key`. -/
def track_wc_key_get (d : Doc) := getBool .TrackWCKey d

/-- Model of Python `str.lower()` / `str.upper()` over the ASCII range used by the
defaults file keys. -/
def lowerStr (s : Str) : Str := s.map Char.toLower

/-- Upper-case a string character-wise. -/
def upperStr (s : Str) : Str := s.map Char.toUpper

/-- Lookup of `kwargs[var_name]` in the change mapping (a Python `dict`, modelled
as an association list with distinct keys; `none` models `var_name not in kwargs`). -/
def kwLookup (kwargs : List (Str × Option Str)) (name : Str) : Option (Option Str) :=
  match kwargs.find? (fun kv => kv.1 == name) with
  | none => none
  | some kv => some kv.2

/-- Model of Python `f"...{value}..."` where `value : Optional[str]`: `None`
renders as the four characters `None`. -/
def renderOptStr : Option Str → Str
  | none => ("None").data
  | some v => v

/-- One iteration of the `for line in f.readlines()` loop of
`SlurmdbdManager.set_environment_var` / `SlurmdbdCharm._update_defaults`:
comment lines and lines without `=` are kept verbatim; a line whose lower-cased
key is in `kwargs` is recorded as processed and is dropped (value `None`) or
rewritten as `UPPER(key)=value`; any other line is kept verbatim.
State is `(updated_contents, keys_processed)`. -/
def defaultsStep (kwargs : List (Str × Option Str)) (st : List Str × List Str)
    (line : Str) : List Str × List Str :=
  if startsHash line then (st.1 ++ [line], st.2)
  else
    match splitOnceEq line with
    | none => (st.1 ++ [line], st.2)
    | some (k, _) =>
        let var_name := lowerStr k
        match kwLookup kwargs var_name with
        | none => (st.1 ++ [line], st.2)
        | some none => (st.1, st.2 ++ [var_name])
        | some (some v) => (st.1 ++ [upperStr var_name ++ '=' :: v], st.2 ++ [var_name])

/-- The trailing loop of `set_environment_var` / `_update_defaults`: append
`UPPER(key)=value` for every requested key not already processed.  Note the
source does not skip `None` values here, so an unprocessed deletion request is
appended as the literal line `KEY=None`. -/
def defaultsAppend (kwargs : List (Str × Option Str)) (st : List Str × List Str) :
    List Str :=
  kwargs.foldl
    (fun acc kv =>
      if st.2.contains kv.1 then acc
      else acc ++ [upperStr kv.1 ++ '=' :: renderOptStr kv.2])
    st.1

/-- The full line-rewriting algorithm of `set_environment_var` /
`_update_defaults`, applied to the lines the loop actually iterates over. -/
def updateDefaultsLines (lines : List Str) (kwargs : List (Str × Option Str)) :
    List Str :=
  defaultsAppend kwargs (lines.foldl (defaultsStep kwargs) ([], []))

/-- Model of `open(SLURMDBD_DEFAULTS, "w+")` followed by `f.readlines()`: mode
`w+` truncates the file on open, so whatever the prior content was, `readlines`
returns no lines. -/
def wplusReadlines (_prior : List Str) : List Str := []

/-- Model of `SlurmdbdManager.set_environment_var` (identical to
`SlurmdbdCharm._update_defaults`) as a function from the prior lines of
`/etc/default/slurmdbd` to the lines written back: the file is opened with mode
`w+` (truncating it), its — now empty — line list is run through the rewrite
loop, and the result is written out. -/
def set_environment_var (prior : List Str) (kwargs : List (Str × Option Str)) :
    List Str :=
  updateDefaultsLines (wplusReadlines prior) kwargs

namespace Legacy

/-- Loop of `SlurmdbdConfEditor.__scan` of `_confeditor.py`.  Its second parameter
`_result_store: Dict[str, Any] = {}` is a mutable default: `load` calls
`self.__scan(deque(...))` without passing it, so the same module-level dict is
mutated by `update` across calls.  The store is threaded explicitly here and is
returned even when a parse raises, since the mutation happens before the raise. -/
def scanShared (store : Doc) : List Str → Doc × Option ConfErr
  | [] => (store, none)
  | lex :: rest =>
      match parse_token lex with
      | .error e => (store, some e)
      | .ok none => (store, some .typeErr)
      | .ok (some (k, v)) => scanShared (docInsert store k (.str v)) rest

/-- Model of `SlurmdbdConfEditor.load` of `_confeditor.py`: scan the non-comment
lines into the shared default store and, on success, make `self.__metadata` that
very store.  Result is `((metadata, store), error)`. -/
def load (content : Str) (store metadata : Doc) : (Doc × Doc) × Option ConfErr :=
  match scanShared store (nonCommentLines content) with
  | (store', none) => ((store', store'), none)
  | (store', some e) => ((metadata, store'), some e)

end Legacy

/-- One typed-setter invocation: one constructor per key of the vocabulary,
carrying the semantic input type of that key's setter. -/
inductive Assign where
  | archive_dir (v : Str)
  | archive_events (v : BV)
  | archive_jobs (v : BV)
  | archive_resvs (v : BV)
  | archive_script (v : Str)
  | archive_steps (v : BV)
  | archive_suspend (v : BV)
  | archive_txn (v : BV)
  | archive_usage (v : BV)
  | auth_info (v : Str)
  | auth_alt_types (v : LV)
  | auth_alt_parameters (v : List (Str × Str))
  | auth_type (v : Str)
  | commit_delay (v : Int)
  | communication_parameters (v : LV)
  | dbd_backup_host (v : Str)
  | dbd_addr (v : Str)
  | dbd_host (v : Str)
  | dbd_port (v : Int)
  | debug_flags (v : LV)
  | debug_level (v : Str)
  | debug_level_syslog (v : Str)
  | default_qos (v : Str)
  | log_file (v : Str)
  | log_time_format (v : Str)
  | max_query_time_range (v : Str)
  | message_timeout (v : Int)
  | parameters (v : LV)
  | pid_file (v : Str)
  | plugin_dir (v : LV)
  | private_data (v : LV)
  | purge_event_after (v : Str)
  | purge_job_after (v : Str)
  | purge_resv_after (v : Str)
  | purge_step_after (v : Str)
  | purge_suspend_after (v : Str)
  | purge_txn_after (v : Str)
  | purge_usage_after (v : Str)
  | slurm_user (v : Str)
  | storage_host (v : Str)
  | storage_backup_host (v : Str)
  | storage_loc (v : Str)
  | storage_parameters (v : List (Str × Str))
  | storage_pass (v : Str)
  | storage_port (v : Int)
  | storage_type (v : Str)
  | storage_user (v : Str)
  | tcp_timeout (v : Int)
  | track_slurmctld_down (v : BV)
  | track_wc_key (v : BV)

/-- The token an assignment writes to. -/
def assignKey : Assign → Key
  | .archive_dir _ => .ArchiveDir
  | .archive_events _ => .ArchiveEvents
  | .archive_jobs _ => .ArchiveJobs
  | .archive_resvs _ => .ArchiveResvs
  | .archive_script _ => .ArchiveScript
  | .archive_steps _ => .ArchiveSteps
  | .archive_suspend _ => .ArchiveSuspend
  | .archive_txn _ => .ArchiveTXN
  | .archive_usage _ => .ArchiveUsage
  | .auth_info _ => .AuthInfo
  | .auth_alt_types _ => .AuthAltTypes
  | .auth_alt_parameters _ => .AuthAltParameters
  | .auth_type _ => .AuthType
  | .commit_delay _ => .CommitDelay
  | .communication_parameters _ => .CommunicationParameters
  | .dbd_backup_host _ => .DbdBackupHost
  | .dbd_addr _ => .DbdAddr
  | .dbd_host _ => .DbdHost
  | .dbd_port _ => .DbdPort
  | .debug_flags _ => .DebugFlags
  | .debug_level _ => .DebugLevel
  | .debug_level_syslog _ => .DebugLevelSyslog
  | .default_qos _ => .DefaultQOS
  | .log_file _ => .LogFile
  | .log_time_format _ => .LogTimeFormat
  | .max_query_time_range _ => .MaxQueryTimeRange
  | .message_timeout _ => .MessageTimeout
  | .parameters _ => .Parameters
  | .pid_file _ => .PidFile
  | .plugin_dir _ => .PluginDir
  | .private_data _ => .PrivateData
  | .purge_event_after _ => .PurgeEventAfter
  | .purge_job_after _ => .PurgeJobAfter
  | .purge_resv_after _ => .PurgeResvAfter
  | .purge_step_after _ => .PurgeStepAfter
  | .purge_suspend_after _ => .PurgeSuspendAfter
  | .purge_txn_after _ => .PurgeTXNAfter
  | .purge_usage_after _ => .PurgeUsageAfter
  | .slurm_user _ => .SlurmUser
  | .storage_host _ => .StorageHost
  | .storage_backup_host _ => .StorageBackupHost
  | .storage_loc _ => .StorageLoc
  | .storage_parameters _ => .StorageParameters
  | .storage_pass _ => .StoragePass
  | .storage_port _ => .StoragePort
  | .storage_type _ => .StorageType
  | .storage_user _ => .StorageUser
  | .tcp_timeout _ => .TCPTimeout
  | .track_slurmctld_down _ => .TrackSlurmctldDown
  | .track_wc_key _ => .TrackWCKey

/-- Dispatch an assignment to the modelled typed setter of its key. -/
def applyAssign (a : Assign) (d : Doc) : Doc × Option ConfErr :=
  match a with
  | .archive_dir v => archive_dir_set d v
  | .archive_events v => archive_events_set d v
  | .archive_jobs v => archive_jobs_set d v
  | .archive_resvs v => archive_resvs_set d v
  | .archive_script v => archive_script_set d v
  | .archive_steps v => archive_steps_set d v
  | .archive_suspend v => archive_suspend_set d v
  | .archive_txn v => archive_txn_set d v
  | .archive_usage v => archive_usage_set d v
  | .auth_info v => auth_info_set d v
  | .auth_alt_types v => auth_alt_types_set d v
  | .auth_alt_parameters v => auth_alt_parameters_set d v
  | .auth_type v => auth_type_set d v
  | .commit_delay v => commit_delay_set d v
  | .communication_parameters v => communication_parameters_set d v
  | .dbd_backup_host v => dbd_backup_host_set d v
  | .dbd_addr v => dbd_addr_set d v
  | .dbd_host v => dbd_host_set d v
  | .dbd_port v => dbd_port_set d v
  | .debug_flags v => debug_flags_set d v
  | .debug_level v => debug_level_set d v
  | .debug_level_syslog v => debug_level_syslog_set d v
  | .default_qos v => default_qos_set d v
  | .log_file v => log_file_set d v
  | .log_time_format v => log_time_format_set d v
  | .max_query_time_range v => max_query_time_range_set d v
  | .message_timeout v => message_timeout_set d v
  | .parameters v => parameters_set d v
  | .pid_file v => pid_file_set d v
  | .plugin_dir v => plugin_dir_set d v
  | .private_data v => private_data_set d v
  | .purge_event_after v => purge_event_after_set d v
  | .purge_job_after v => purge_job_after_set d v
  | .purge_resv_after v => purge_resv_after_set d v
  | .purge_step_after v => purge_step_after_set d v
  | .purge_suspend_after v => purge_suspend_after_set d v
  | .purge_txn_after v => purge_txn_after_set d v
  | .purge_usage_after v => purge_usage_after_set d v
  | .slurm_user v => slurm_user_set d v
  | .storage_host v => storage_host_set d v
  | .storage_backup_host v => storage_backup_host_set d v
  | .storage_loc v => storage_loc_set d v
  | .storage_parameters v => storage_parameters_set d v
  | .storage_pass v => storage_pass_set d v
  | .storage_port v => storage_port_set d v
  | .storage_type v => storage_type_set d v
  | .storage_user v => storage_user_set d v
  | .tcp_timeout v => tcp_timeout_set d v
  | .track_slurmctld_down v => track_slurmctld_down_set d v
  | .track_wc_key v => track_wc_key_set d v

/-- Sequence of typed-setter invocations; a raised validator error aborts the
sequence with the document as it then stands. -/
def applySeq : List Assign → Doc → Doc × Option ConfErr
  | [], d => (d, none)
  | a :: as_, d =>
      match applyAssign a d with
      | (d', none) => applySeq as_ d'
      | (d', some e) => (d', some e)

/-- Does the string avoid the newline character? -/
def noNl (s : Str) : Bool := !s.any (fun c => c == '\n')

/-- Round-trip well-formedness of one validated plain-string input: the validator
passes and the canonical string is newline-free. -/
def okChecked (check : Str → Option ConfErr) (s : Str) : Bool :=
  (check s).isNone && noNl s

/-- Round-trip well-formedness of a boolean-like input: an actual boolean. -/
def okBool : BV → Bool
  | .inl _ => true
  | .inr _ => false

/-- Round-trip well-formedness of a list input: an actual nonempty list whose
elements contain neither the join delimiter nor a newline. -/
def okList (sep : Char) : LV → Bool
  | .inl _ => false
  | .inr xs => !xs.isEmpty && xs.all (fun x => noNl x && !x.any (fun c => c == sep))

/-- Round-trip well-formedness of one component of a parameter pair: free of
`,`, `=` and newline. -/
def okPairComp (x : Str) : Bool :=
  noNl x && !x.any (fun c => c == ',') && !x.any (fun c => c == '=')

/-- Round-trip well-formedness of a parameter-list input. -/
def okPairs (ps : List (Str × Str)) : Bool :=
  !ps.isEmpty && ps.all (fun pr => okPairComp pr.1 && okPairComp pr.2)

/-- Round-trip well-formedness of a port input: accepted by `_check_port_num`. -/
def okPort (n : Int) : Bool := (check_port_num (.int n)).isNone

/-- Well-formedness of one assignment for the round-trip property: its value is
accepted by the key's validator (where one exists) and is free of the
delimiter/newline injections that break the textual format. -/
def okAssign : Assign → Bool
  | .archive_dir v => noNl v
  | .archive_events v => okBool v
  | .archive_jobs v => okBool v
  | .archive_resvs v => okBool v
  | .archive_script v => noNl v
  | .archive_steps v => okBool v
  | .archive_suspend v => okBool v
  | .archive_txn v => okBool v
  | .archive_usage v => okBool v
  | .auth_info v => noNl v
  | .auth_alt_types v => okList ',' v
  | .auth_alt_parameters v => okPairs v
  | .auth_type v => okChecked check_auth_type v
  | .commit_delay _ => true
  | .communication_parameters v => okList ',' v
  | .dbd_backup_host v => noNl v
  | .dbd_addr v => noNl v
  | .dbd_host v => noNl v
  | .dbd_port v => okPort v
  | .debug_flags v => okList ',' v && (promote v).all (fun x => (check_debug_flag x).isNone)
  | .debug_level v => okChecked check_debug_level v
  | .debug_level_syslog v => okChecked check_debug_level v
  | .default_qos v => noNl v
  | .log_file v => noNl v
  | .log_time_format v => okChecked check_log_time_format v
  | .max_query_time_range v => okChecked check_query_time_format v
  | .message_timeout _ => true
  | .parameters v => okList ',' v
  | .pid_file v => noNl v
  | .plugin_dir v => okList ':' v
  | .private_data v => okList ',' v && (promote v).all (fun x => (check_private_data x).isNone)
  | .purge_event_after v => okChecked check_time_format v
  | .purge_job_after v => okChecked check_time_format v
  | .purge_resv_after v => okChecked check_time_format v
  | .purge_step_after v => okChecked check_time_format v
  | .purge_suspend_after v => okChecked check_time_format v
  | .purge_txn_after v => okChecked check_time_format v
  | .purge_usage_after v => okChecked check_time_format v
  | .slurm_user v => noNl v
  | .storage_host v => noNl v
  | .storage_backup_host v => noNl v
  | .storage_loc v => noNl v
  | .storage_parameters v => okPairs v
  | .storage_pass v => okChecked check_password v
  | .storage_port v => okPort v
  | .storage_type v => okChecked check_storage_type v
  | .storage_user v => noNl v
  | .tcp_timeout _ => true
  | .track_slurmctld_down v => okBool v
  | .track_wc_key v => okBool v

/-- The canonical stored value an assignment writes (what its setter stores). -/
def canonV : Assign → V
  | .archive_dir v => .str v
  | .archive_events v => .str (boolToStore v)
  | .archive_jobs v => .str (boolToStore v)
  | .archive_resvs v => .str (boolToStore v)
  | .archive_script v => .str v
  | .archive_steps v => .str (boolToStore v)
  | .archive_suspend v => .str (boolToStore v)
  | .archive_txn v => .str (boolToStore v)
  | .archive_usage v => .str (boolToStore v)
  | .auth_info v => .str v
  | .auth_alt_types v => .str (joinSep ',' (promote v))
  | .auth_alt_parameters v => .str (joinSep ',' (v.map (fun pr => pr.1 ++ '=' :: pr.2)))
  | .auth_type v => .str v
  | .commit_delay v => .int v
  | .communication_parameters v => .str (joinSep ',' (promote v))
  | .dbd_backup_host v => .str v
  | .dbd_addr v => .str v
  | .dbd_host v => .str v
  | .dbd_port v => .int v
  | .debug_flags v => .str (joinSep ',' (promote v))
  | .debug_level v => .str v
  | .debug_level_syslog v => .str v
  | .default_qos v => .str v
  | .log_file v => .str v
  | .log_time_format v => .str v
  | .max_query_time_range v => .str v
  | .message_timeout v => .int v
  | .parameters v => .str (joinSep ',' (promote v))
  | .pid_file v => .str v
  | .plugin_dir v => .str (joinSep ':' (promote v))
  | .private_data v => .str (joinSep ',' (promote v))
  | .purge_event_after v => .str v
  | .purge_job_after v => .str v
  | .purge_resv_after v => .str v
  | .purge_step_after v => .str v
  | .purge_suspend_after v => .str v
  | .purge_txn_after v => .str v
  | .purge_usage_after v => .str v
  | .slurm_user v => .str v
  | .storage_host v => .str v
  | .storage_backup_host v => .str v
  | .storage_loc v => .str v
  | .storage_parameters v => .str (joinSep ',' (v.map (fun pr => pr.1 ++ '=' :: pr.2)))
  | .storage_pass v => .str v
  | .storage_port v => .int v
  | .storage_type v => .str v
  | .storage_user v => .str v
  | .tcp_timeout v => .int v
  | .track_slurmctld_down v => .str (boolToStore v)
  | .track_wc_key v => .str (boolToStore v)

/-- Semantic agreement after reload: the key's typed getter on document `d`
returns a value semantically equal to the assignment's input (`True` in the
union cases that `okAssign` rules out). -/
def semGot (a : Assign) (d : Doc) : Prop :=
  match a with
  | .archive_dir v => archive_dir_get d = some (.str v)
  | .archive_events v =>
      match v with
      | .inl b => archive_events_get d = some b
      | .inr _ => True
  | .archive_jobs v =>
      match v with
      | .inl b => archive_jobs_get d = some b
      | .inr _ => True
  | .archive_resvs v =>
      match v with
      | .inl b => archive_resvs_get d = some b
      | .inr _ => True
  | .archive_script v => archive_script_get d = some (.str v)
  | .archive_steps v =>
      match v with
      | .inl b => archive_steps_get d = some b
      | .inr _ => True
  | .archive_suspend v =>
      match v with
      | .inl b => archive_suspend_get d = some b
      | .inr _ => True
  | .archive_txn v =>
      match v with
      | .inl b => archive_txn_get d = some b
      | .inr _ => True
  | .archive_usage v =>
      match v with
      | .inl b => archive_usage_get d = some b
      | .inr _ => True
  | .auth_info v => auth_info_get d = some (.str v)
  | .auth_alt_types v =>
      match v with
      | .inr xs => auth_alt_types_get d = .ok (some xs)
      | .inl _ => True
  | .auth_alt_parameters v =>
      auth_alt_parameters_get d = .ok (some (v.map (fun pr => [pr.1, pr.2])))
  | .auth_type v => auth_type_get d = some (.str v)
  | .commit_delay v => commit_delay_get d = .ok (some v)
  | .communication_parameters v =>
      match v with
      | .inr xs => communication_parameters_get d = .ok (some xs)
      | .inl _ => True
  | .dbd_backup_host v => dbd_backup_host_get d = some (.str v)
  | .dbd_addr v => dbd_addr_get d = some (.str v)
  | .dbd_host v => dbd_host_get d = some (.str v)
  | .dbd_port v => dbd_port_get d = .ok (some v)
  | .debug_flags v =>
      match v with
      | .inr xs => debug_flags_get d = .ok (some xs)
      | .inl _ => True
  | .debug_level v => debug_level_get d = some (.str v)
  | .debug_level_syslog v => debug_level_syslog_get d = some (.str v)
  | .default_qos v => default_qos_get d = some (.str v)
  | .log_file v => log_file_get d = some (.str v)
  | .log_time_format v => log_time_format_get d = some (.str v)
  | .max_query_time_range v => max_query_time_range_get d = some (.str v)
  | .message_timeout v => message_timeout_get d = .ok (some v)
  | .parameters v =>
      match v with
      | .inr xs => parameters_get d = .ok (some xs)
      | .inl _ => True
  | .pid_file v => pid_file_get d = some (.str v)
  | .plugin_dir v =>
      match v with
      | .inr xs => plugin_dir_get d = .ok (some xs)
      | .inl _ => True
  | .private_data v =>
      match v with
      | .inr xs => private_data_get d = .ok (some xs)
      | .inl _ => True
  | .purge_event_after v => purge_event_after_get d = some (.str v)
  | .purge_job_after v => purge_job_after_get d = some (.str v)
  | .purge_resv_after v => purge_resv_after_get d = some (.str v)
  | .purge_step_after v => purge_step_after_get d = some (.str v)
  | .purge_suspend_after v => purge_suspend_after_get d = some (.str v)
  | .purge_txn_after v => purge_txn_after_get d = some (.str v)
  | .purge_usage_after v => purge_usage_after_get d = some (.str v)
  | .slurm_user v => slurm_user_get d = some (.str v)
  | .storage_host v => storage_host_get d = some (.str v)
  | .storage_backup_host v => storage_backup_host_get d = some (.str v)
  | .storage_loc v => storage_loc_get d = some (.str v)
  | .storage_parameters v =>
      storage_parameters_get d = .ok (v.map (fun pr => [pr.1, pr.2]))
  | .storage_pass v => storage_pass_get d = some (.str v)
  | .storage_port v => storage_port_get d = .ok (some v)
  | .storage_type v => storage_type_get d = some (.str v)
  | .storage_user v => storage_user_get d = some (.str v)
  | .tcp_timeout v => tcp_timeout_get d = .ok (some v)
  | .track_slurmctld_down v =>
      match v with
      | .inl b => track_slurmctld_down_get d = some b
      | .inr _ => True
  | .track_wc_key v =>
      match v with
      | .inl b => track_wc_key_get d = some b
      | .inr _ => True

/-- Does this assignment's key have a validator that rejects the given input?
Keys without a validator are never rejecting. -/
def rejects : Assign → Bool
  | .archive_events v => (check_bool v).isSome
  | .archive_jobs v => (check_bool v).isSome
  | .archive_resvs v => (check_bool v).isSome
  | .archive_steps v => (check_bool v).isSome
  | .archive_suspend v => (check_bool v).isSome
  | .archive_usage v => (check_bool v).isSome
  | .auth_type v => (check_auth_type v).isSome
  | .dbd_port v => (check_port_num (.int v)).isSome
  | .debug_flags v => ((promote v).findSome? check_debug_flag).isSome
  | .debug_level v => (check_debug_level v).isSome
  | .debug_level_syslog v => (check_debug_level v).isSome
  | .log_time_format v => (check_log_time_format v).isSome
  | .max_query_time_range v => (check_query_time_format v).isSome
  | .private_data v => ((promote v).findSome? check_private_data).isSome
  | .purge_event_after v => (check_time_format v).isSome
  | .purge_job_after v => (check_time_format v).isSome
  | .purge_resv_after v => (check_time_format v).isSome
  | .purge_step_after v => (check_time_format v).isSome
  | .purge_suspend_after v => (check_time_format v).isSome
  | .purge_txn_after v => (check_time_format v).isSome
  | .purge_usage_after v => (check_time_format v).isSome
  | .storage_pass v => (check_password v).isSome
  | .storage_port v => (check_port_num (.int v)).isSome
  | .storage_type v => (check_storage_type v).isSome
  | .track_slurmctld_down v => (check_bool v).isSome
  | .track_wc_key v => (check_bool v).isSome
  | _ => false

/-! ## Supporting lemmas -/

theorem splitChar_ne_nil (sep : Char) (s : Str) : splitChar sep s ≠ [] := by
  cases s with
  | nil => simp [splitChar]
  | cons c cs =>
      simp only [splitChar]
      rcases h : splitChar sep cs with _ | ⟨r, rs⟩
      · simp
      · by_cases hc : c = sep <;> simp [hc]

theorem splitChar_not_mem {sep : Char} {s : Str} (h : sep ∉ s) :
    splitChar sep s = [s] := by
  induction s with
  | nil => rfl
  | cons c cs ih =>
      have hc : c ≠ sep := fun hc => h (hc ▸ List.mem_cons_self c cs)
      have hcs : sep ∉ cs := fun hm => h (List.mem_cons_of_mem _ hm)
      simp only [splitChar, ih hcs]
      simp [hc]

theorem splitChar_append {sep : Char} {a : Str} (b : Str) (h : sep ∉ a) :
    splitChar sep (a ++ sep :: b) = a :: splitChar sep b := by
  induction a with
  | nil =>
      rcases h' : splitChar sep b with _ | ⟨r, rs⟩
      · exact absurd h' (splitChar_ne_nil _ _)
      · simp [splitChar, h']
  | cons c cs ih =>
      have hc : c ≠ sep := fun hc => h (hc ▸ List.mem_cons_self c cs)
      have hcs : sep ∉ cs := fun hm => h (List.mem_cons_of_mem _ hm)
      have h2 := ih hcs
      simp only [List.cons_append, splitChar, List.append_eq]
      rw [h2]
      simp [hc]

theorem splitChar_joinSep {sep : Char} {xs : List Str} (hne : xs ≠ [])
    (h : ∀ x ∈ xs, sep ∉ x) : splitChar sep (joinSep sep xs) = xs := by
  induction xs with
  | nil => exact absurd rfl hne
  | cons x xs ih =>
      cases xs with
      | nil => exact splitChar_not_mem (h x (List.mem_cons_self x []))
      | cons y ys =>
          have hx : sep ∉ x := h x (List.mem_cons_self _ _)
          have hrest : ∀ z ∈ y :: ys, sep ∉ z := fun z hz =>
            h z (List.mem_cons_of_mem _ hz)
          have : joinSep sep (x :: y :: ys) = x ++ sep :: joinSep sep (y :: ys) := rfl
          rw [this, splitChar_append _ hx, ih (by simp) hrest]

theorem joinNl_cons (l : Str) (ls : List Str) :
    joinNl (l :: ls) = l ++ '\n' :: joinNl ls := by
  simp [joinNl]

theorem splitChar_joinNl {ls : List Str} (h : ∀ l ∈ ls, '\n' ∉ l) :
    splitChar '\n' (joinNl ls) = ls ++ [[]] := by
  induction ls with
  | nil => rfl
  | cons l ls ih =>
      rw [joinNl_cons, splitChar_append _ (h l (List.mem_cons_self _ _)),
        ih (fun x hx => h x (List.mem_cons_of_mem _ hx))]
      rfl

theorem noNl_iff {s : Str} : noNl s = true ↔ '\n' ∉ s := by
  simp only [noNl, Bool.not_eq_true', List.any_eq_false, beq_iff_eq]
  constructor
  · intro h hm
    exact absurd rfl (h _ hm)
  · intro h c hc hcn
    exact h (hcn ▸ hc)

theorem foldl_digits_append (a : Str) (c : Char) :
    (a ++ [c]).foldl (fun acc x => acc * 10 + dval x) 0 =
      (a.foldl (fun acc x => acc * 10 + dval x) 0) * 10 + dval c := by
  rw [List.foldl_append]
  rfl

theorem digitOfNat_isDigit (d : Nat) : isDigitC (digitOfNat d) = true := by
  unfold digitOfNat
  split <;> decide

theorem dval_digitOfNat {d : Nat} (h : d < 10) : dval (digitOfNat d) = d := by
  interval_cases d <;> decide

theorem natToStrAux_all_digits (fuel : Nat) :
    ∀ n, ∀ c ∈ natToStrAux fuel n, isDigitC c = true := by
  induction fuel with
  | zero =>
      intro n c hc
      simp only [natToStrAux, List.mem_singleton] at hc
      exact hc ▸ digitOfNat_isDigit n
  | succ fuel ih =>
      intro n c hc
      by_cases h : n < 10
      · simp only [natToStrAux, if_pos h, List.mem_singleton] at hc
        exact hc ▸ digitOfNat_isDigit n
      · simp only [natToStrAux, if_neg h] at hc
        rcases List.mem_append.mp hc with h1 | h2
        · exact ih (n / 10) c h1
        · simp only [List.mem_singleton] at h2
          exact h2 ▸ digitOfNat_isDigit _

theorem natToStr_all_digits (n : Nat) : ∀ c ∈ natToStr n, isDigitC c = true :=
  natToStrAux_all_digits n n

theorem natToStr_ne_nil (n : Nat) : natToStr n ≠ [] := by
  unfold natToStr
  cases n with
  | zero => simp [natToStrAux]
  | succ m =>
      simp only [natToStrAux]
      split <;> simp

theorem strToNat_natToStrAux : ∀ (fuel n : Nat), n ≤ fuel →
    strToNat (natToStrAux fuel n) = n := by
  intro fuel
  induction fuel with
  | zero =>
      intro n hn
      have : n = 0 := by omega
      subst this
      decide
  | succ fuel ih =>
      intro n hn
      by_cases h : n < 10
      · simp only [natToStrAux, if_pos h, strToNat, List.foldl_cons, List.foldl_nil]
        rw [dval_digitOfNat h]
        omega
      · simp only [natToStrAux, if_neg h, strToNat]
        rw [foldl_digits_append]
        have hdiv10 : n / 10 ≤ fuel := by
          have := Nat.div_lt_self (show 0 < n by omega) (show 1 < 10 by omega)
          omega
        have hdiv := ih (n / 10) hdiv10
        simp only [strToNat] at hdiv
        rw [hdiv, dval_digitOfNat (Nat.mod_lt n (by omega))]
        omega

theorem strToNat_natToStr (n : Nat) : strToNat (natToStr n) = n :=
  strToNat_natToStrAux n n (Nat.le_refl n)

theorem isDigitC_ne_special {c : Char} (h : isDigitC c = true) :
    c ≠ '\n' ∧ c ≠ '-' ∧ c ≠ '+' ∧ c ≠ '#' ∧ c ≠ '=' ∧ c ≠ ',' ∧ c ≠ ':' := by
  simp only [isDigitC, Bool.and_eq_true, decide_eq_true_eq] at h
  refine ⟨?_, ?_, ?_, ?_, ?_, ?_, ?_⟩ <;>
    (intro hc; subst hc; revert h; decide)

theorem pyIntOfStr_intToStr (i : Int) : pyIntOfStr (intToStr i) = some i := by
  have hd := natToStr_all_digits i.natAbs
  have hne := natToStr_ne_nil i.natAbs
  by_cases hneg : i < 0
  · have hall : (natToStr i.natAbs ≠ [] && (natToStr i.natAbs).all isDigitC) = true := by
      simp only [Bool.and_eq_true, ne_eq, decide_eq_true_eq, List.all_eq_true]
      exact ⟨hne, hd⟩
    have habs : ((i.natAbs : Nat) : Int) = -i := by omega
    simp only [intToStr, if_pos hneg, pyIntOfStr, if_pos hall,
      strToNat_natToStr, habs, neg_neg]
    simp
  · rcases hs : natToStr i.natAbs with _ | ⟨c, cs⟩
    · exact absurd hs hne
    · have hcd : isDigitC c = true := hd c (hs ▸ List.mem_cons_self _ _)
      obtain ⟨-, hcm, hcp, -, -, -, -⟩ := isDigitC_ne_special hcd
      have hall : (c :: cs).all isDigitC = true := by
        simp only [List.all_eq_true]
        intro c' hc'
        exact hd c' (hs ▸ hc')
      have hnum : strToNat (c :: cs) = i.natAbs := by
        have := strToNat_natToStr i.natAbs
        rwa [hs] at this
      have habs : ((i.natAbs : Nat) : Int) = i := by omega
      simp only [intToStr, if_neg hneg, hs, pyIntOfStr, if_neg hcm, if_neg hcp,
        if_pos hall, hnum, habs]

theorem keyName_facts (k : Key) :
    keyName k ≠ [] ∧ startsHash (keyName k) = false ∧
      '=' ∉ keyName k ∧ '\n' ∉ keyName k := by
  cases k <;> decide

theorem tokenOfName_keyName (k : Key) : tokenOfName (keyName k) = some k := by
  cases k <;> rfl

theorem parse_token_go_no_eq {s : Str} (h : '=' ∉ s) (p : Str) :
    parse_token_go p s = .ok none := by
  induction s generalizing p with
  | nil => rfl
  | cons c cs ih =>
      have hc : c ≠ '=' := fun hc => h (hc ▸ List.mem_cons_self c cs)
      have hcs : '=' ∉ cs := fun hm => h (List.mem_cons_of_mem _ hm)
      simp only [parse_token_go, if_neg hc]
      exact ih hcs _

theorem parse_token_go_entry {n : Str} (hn : '=' ∉ n) (p v : Str) :
    parse_token_go p (n ++ '=' :: v) =
      (match tokenOfName (p ++ n) with
       | some k => .ok (some (k, v))
       | none => .error (.unrecognized (p ++ n))) := by
  induction n generalizing p with
  | nil => simp [parse_token_go]
  | cons c cs ih =>
      have hc : c ≠ '=' := fun hc => hn (hc ▸ List.mem_cons_self c cs)
      have hcs : '=' ∉ cs := fun hm => hn (List.mem_cons_of_mem _ hm)
      simp only [List.cons_append, parse_token_go, if_neg hc, List.append_eq]
      rw [ih hcs (p ++ [c])]
      simp

theorem parse_entryLine (k : Key) (v : V) :
    parse_token (entryLine (k, v)) = .ok (some (k, render v)) := by
  have hne := (keyName_facts k).2.2.1
  simp only [entryLine, parse_token]
  rw [parse_token_go_entry hne [] (render v)]
  simp [tokenOfName_keyName]

theorem splitOnceEq_some {l a b : Str} (h : splitOnceEq l = some (a, b)) :
    l = a ++ '=' :: b ∧ '=' ∉ a := by
  induction l generalizing a b with
  | nil => simp [splitOnceEq] at h
  | cons c cs ih =>
      by_cases hc : c = '='
      · subst hc
        simp only [splitOnceEq, if_pos rfl, Option.some.injEq, Prod.mk.injEq] at h
        obtain ⟨rfl, rfl⟩ := h
        simp
      · simp only [splitOnceEq, if_neg hc] at h
        rcases h' : splitOnceEq cs with _ | ⟨a', b'⟩
        · rw [h'] at h
          simp at h
        · rw [h'] at h
          simp only [Option.some.injEq, Prod.mk.injEq] at h
          obtain ⟨h1, h2⟩ := h
          subst h2
          obtain ⟨hl, hna⟩ := ih h'
          subst h1
          refine ⟨by simp [hl], ?_⟩
          intro hm
          rcases List.mem_cons.mp hm with h1 | h2
          · exact hc h1.symm
          · exact hna h2

theorem splitOnceEq_isSome {l : Str} (h : '=' ∈ l) :
    ∃ a b, splitOnceEq l = some (a, b) := by
  induction l with
  | nil => simp at h
  | cons c cs ih =>
      by_cases hc : c = '='
      · exact ⟨[], cs, by simp [splitOnceEq, hc]⟩
      · rcases List.mem_cons.mp h with h1 | h2
        · exact absurd h1.symm hc
        · obtain ⟨a, b, hab⟩ := ih h2
          exact ⟨c :: a, b, by simp [splitOnceEq, hc, hab]⟩

theorem docLookup_insert_of_none {d : Doc} {k : Key} (h : docLookup d k = none)
    (v : V) : docInsert d k v = d ++ [(k, v)] := by
  induction d with
  | nil => rfl
  | cons kv rest ih =>
      simp only [docLookup] at h
      by_cases hk : kv.1 = k
      · rw [if_pos hk] at h
        exact absurd h (by simp)
      · rw [if_neg hk] at h
        cases kv with
        | mk k' v' =>
            simp only at hk
            simp [docInsert, hk, ih h]

theorem docLookup_append (d1 d2 : Doc) (k : Key) :
    docLookup (d1 ++ d2) k =
      (match docLookup d1 k with
       | some v => some v
       | none => docLookup d2 k) := by
  induction d1 with
  | nil => simp [docLookup]
  | cons kv rest ih =>
      by_cases hk : kv.1 = k
      · cases kv
        simp_all [docLookup]
      · cases kv
        simp_all [docLookup]

theorem docLookup_cons (a : Key) (b : V) (rest : Doc) (k : Key) :
    docLookup ((a, b) :: rest) k = if a = k then some b else docLookup rest k := rfl

theorem docErase_cons (a : Key) (b : V) (rest : Doc) (k : Key) :
    docErase ((a, b) :: rest) k =
      if a = k then docErase rest k else (a, b) :: docErase rest k := by
  simp only [docErase, List.filter_cons]
  by_cases hk : a = k <;> simp [hk]

theorem docLookup_erase_self (d : Doc) (k : Key) :
    docLookup (docErase d k) k = none := by
  induction d with
  | nil => rfl
  | cons kv rest ih =>
      cases kv with
      | mk a b =>
          rw [docErase_cons]
          by_cases hk : a = k
          · rw [if_pos hk]
            exact ih
          · rw [if_neg hk, docLookup_cons, if_neg hk]
            exact ih

theorem docLookup_erase_ne (d : Doc) {k k' : Key} (h : k' ≠ k) :
    docLookup (docErase d k) k' = docLookup d k' := by
  induction d with
  | nil => rfl
  | cons kv rest ih =>
      cases kv with
      | mk a b =>
          rw [docErase_cons, docLookup_cons]
          by_cases hk : a = k
          · rw [if_pos hk, if_neg (hk ▸ fun he => h (he ▸ rfl)), ih]
          · rw [if_neg hk, docLookup_cons, ih]

theorem scan_go_entries (pairs : List (Key × V)) (store : Doc) :
    scan_go store (pairs.map entryLine) =
      .ok (pairs.foldl (fun st kv => docInsert st kv.1 (.str (render kv.2))) store) := by
  induction pairs generalizing store with
  | nil => rfl
  | cons kv rest ih =>
      cases kv with
      | mk k v =>
          simp only [List.map_cons, scan_go, parse_entryLine, List.foldl_cons]
          exact ih _

theorem foldl_docInsert_fresh {α : Type} (key : α → Key) (val : α → V)
    (xs : List α) (store : Doc)
    (hdisj : ∀ x ∈ xs, docLookup store (key x) = none)
    (hnodup : (xs.map key).Nodup) :
    xs.foldl (fun st x => docInsert st (key x) (val x)) store =
      store ++ xs.map (fun x => (key x, val x)) := by
  induction xs generalizing store with
  | nil => simp
  | cons x xs ih =>
      simp only [List.map_cons, List.nodup_cons] at hnodup
      simp only [List.foldl_cons, List.map_cons]
      rw [docLookup_insert_of_none (hdisj x (List.mem_cons_self _ _)) (val x)]
      rw [ih (store ++ [(key x, val x)])]
      · simp
      · intro y hy
        rw [docLookup_append]
        rw [hdisj y (List.mem_cons_of_mem _ hy)]
        have hne : key x ≠ key y := fun he =>
          hnodup.1 (he ▸ List.mem_map_of_mem key hy)
        simp [docLookup_cons, docLookup, hne]
      · exact hnodup.2

theorem docLookup_map {α : Type} (key : α → Key) (val : α → V) {as_ : List α}
    (hnodup : (as_.map key).Nodup) {a : α} (ha : a ∈ as_) :
    docLookup (as_.map (fun x => (key x, val x))) (key a) = some (val a) := by
  induction as_ with
  | nil => cases ha
  | cons b bs ih =>
      simp only [List.map_cons, List.nodup_cons] at hnodup
      rcases List.mem_cons.mp ha with rfl | hmem
      · simp [docLookup_cons]
      · rw [List.map_cons, docLookup_cons, if_neg, ih hnodup.2 hmem]
        intro he
        exact hnodup.1 (he ▸ List.mem_map_of_mem key hmem)

theorem dumpContent_eq (doc : Doc) (path ts : Str) :
    dumpContent doc path ts = joinNl (bannerLines path ts ++ doc.map entryLine) := rfl

theorem entryLine_keep (kv : Key × V) :
    (!(entryLine kv).isEmpty && !startsHash (entryLine kv)) = true := by
  obtain ⟨hne, hsh, -, -⟩ := keyName_facts kv.1
  rcases hk : keyName kv.1 with _ | ⟨c, tail⟩
  · exact absurd hk hne
  · rw [hk] at hsh
    simp only [startsHash] at hsh
    simp only [entryLine, hk, List.cons_append, List.isEmpty_cons, startsHash, hsh]
    rfl

theorem entryLine_no_nl {kv : Key × V} (hv : '\n' ∉ render kv.2) :
    '\n' ∉ entryLine kv := by
  obtain ⟨-, -, -, hnl⟩ := keyName_facts kv.1
  intro hm
  rcases List.mem_append.mp hm with h1 | h2
  · exact hnl h1
  · rcases List.mem_cons.mp h2 with h3 | h4
    · exact absurd h3 (by decide)
    · exact hv h4

theorem dump_lines_no_nl (doc : Doc) (path ts : Str)
    (hv : ∀ kv ∈ doc, '\n' ∉ render kv.2)
    (hp : '\n' ∉ path) (hts : '\n' ∉ ts) :
    ∀ l ∈ bannerLines path ts ++ doc.map entryLine, '\n' ∉ l := by
  have hb2 : '\n' ∉ ("# ").data ++ path ++ (" generated at ").data ++ ts := by
    intro hm
    rcases List.mem_append.mp hm with h1 | h2
    · rcases List.mem_append.mp h1 with h3 | h4
      · rcases List.mem_append.mp h3 with h5 | h6
        · exact absurd h5 (by decide)
        · exact hp h6
      · exact absurd h4 (by decide)
    · exact hts h2
  intro l hl
  rcases List.mem_append.mp hl with hbm | he
  · simp only [bannerLines, List.mem_cons, List.not_mem_nil, or_false] at hbm
    rcases hbm with rfl | rfl | rfl
    · exact fun hm => absurd hm (by decide)
    · exact hb2
    · exact fun hm => absurd hm (by decide)
  · obtain ⟨kv, hkv, rfl⟩ := List.mem_map.mp he
    exact entryLine_no_nl (hv kv hkv)

theorem nonCommentLines_dump (doc : Doc) (path ts : Str)
    (hv : ∀ kv ∈ doc, '\n' ∉ render kv.2)
    (hp : '\n' ∉ path) (hts : '\n' ∉ ts) :
    nonCommentLines (dumpContent doc path ts) = doc.map entryLine := by
  rw [dumpContent_eq, nonCommentLines,
    splitChar_joinNl (dump_lines_no_nl doc path ts hv hp hts)]
  have hfb : (bannerLines path ts).filter (fun l => !l.isEmpty && !startsHash l) = [] := by
    simp only [bannerLines, List.filter]
    rfl
  have hfe : (doc.map entryLine).filter (fun l => !l.isEmpty && !startsHash l) =
      doc.map entryLine :=
    List.filter_eq_self.mpr (by
      intro l hl
      obtain ⟨kv, hkv, rfl⟩ := List.mem_map.mp hl
      exact entryLine_keep kv)
  rw [List.append_assoc, List.filter_append, List.filter_append, hfb, hfe]
  simp [startsHash]

theorem dumpThenLoad_ok (doc : Doc) (path ts : Str)
    (hv : ∀ kv ∈ doc, '\n' ∉ render kv.2) (hp : '\n' ∉ path) (hts : '\n' ∉ ts)
    (hnodup : (doc.map Prod.fst).Nodup) :
    dumpThenLoad doc path ts =
      (doc.map (fun kv => (kv.1, V.str (render kv.2))), none) := by
  unfold dumpThenLoad loadRun
  rw [nonCommentLines_dump doc path ts hv hp hts]
  unfold scan
  rw [scan_go_entries doc []]
  rw [foldl_docInsert_fresh Prod.fst (fun kv => V.str (render kv.2)) doc []
    (fun x _ => rfl) hnodup]
  rfl

theorem not_any_beq {s : Str} {c : Char} :
    (!s.any (fun x => x == c)) = true ↔ c ∉ s := by
  simp only [Bool.not_eq_true', List.any_eq_false, beq_iff_eq]
  constructor
  · intro h hm
    exact absurd rfl (h _ hm)
  · intro h x hx hxc
    exact h (hxc ▸ hx)

theorem findSome?_none_of_all {α β : Type} {f : α → Option β} {l : List α}
    (h : ∀ x ∈ l, f x = none) : l.findSome? f = none := by
  induction l with
  | nil => rfl
  | cons x xs ih =>
      rw [List.findSome?_cons, h x (List.mem_cons_self _ _)]
      exact ih (fun y hy => h y (List.mem_cons_of_mem _ hy))

theorem setChecked_ok {check : Str → Option ConfErr} {v : Str} (h : check v = none)
    (tok : Key) (d : Doc) :
    setChecked check tok d v = (docInsert d tok (.str v), none) := by
  simp [setChecked, h]

theorem setPort_ok {n : Int} (h : check_port_num (.int n) = none) (tok : Key) (d : Doc) :
    setPort tok d n = (docInsert d tok (.int n), none) := by
  simp [setPort, h]

theorem setListChecked_ok {check : Str → Option ConfErr} {v : LV}
    (h : (promote v).findSome? check = none) (sep : Char) (tok : Key) (d : Doc) :
    setListChecked check sep tok d v =
      (docInsert d tok (.str (joinSep sep (promote v))), none) := by
  simp [setListChecked, h]

theorem applyAssign_ok {a : Assign} (h : okAssign a = true) (d : Doc) :
    applyAssign a d = (docInsert d (assignKey a) (canonV a), none) := by
  cases a with
  | archive_dir v => rfl
  | archive_events v => cases v with
      | inl b => rfl
      | inr s => exact absurd h (by simp [okAssign, okBool])
  | archive_jobs v => cases v with
      | inl b => rfl
      | inr s => exact absurd h (by simp [okAssign, okBool])
  | archive_resvs v => cases v with
      | inl b => rfl
      | inr s => exact absurd h (by simp [okAssign, okBool])
  | archive_script v => rfl
  | archive_steps v => cases v with
      | inl b => rfl
      | inr s => exact absurd h (by simp [okAssign, okBool])
  | archive_suspend v => cases v with
      | inl b => rfl
      | inr s => exact absurd h (by simp [okAssign, okBool])
  | archive_txn v => rfl
  | archive_usage v => cases v with
      | inl b => rfl
      | inr s => exact absurd h (by simp [okAssign, okBool])
  | auth_info v => rfl
  | auth_alt_types v => rfl
  | auth_alt_parameters v => rfl
  | auth_type v =>
      simp only [okAssign, okChecked, Bool.and_eq_true,
        Option.isNone_iff_eq_none] at h
      exact setChecked_ok h.1 _ _
  | commit_delay v => rfl
  | communication_parameters v => rfl
  | dbd_backup_host v => rfl
  | dbd_addr v => rfl
  | dbd_host v => rfl
  | dbd_port v =>
      simp only [okAssign, okPort, Option.isNone_iff_eq_none] at h
      exact setPort_ok h _ _
  | debug_flags v =>
      simp only [okAssign, Bool.and_eq_true, List.all_eq_true,
        Option.isNone_iff_eq_none] at h
      exact setListChecked_ok (findSome?_none_of_all h.2) _ _ _
  | debug_level v =>
      simp only [okAssign, okChecked, Bool.and_eq_true,
        Option.isNone_iff_eq_none] at h
      exact setChecked_ok h.1 _ _
  | debug_level_syslog v =>
      simp only [okAssign, okChecked, Bool.and_eq_true,
        Option.isNone_iff_eq_none] at h
      exact setChecked_ok h.1 _ _
  | default_qos v => rfl
  | log_file v => rfl
  | log_time_format v =>
      simp only [okAssign, okChecked, Bool.and_eq_true,
        Option.isNone_iff_eq_none] at h
      exact setChecked_ok h.1 _ _
  | max_query_time_range v =>
      simp only [okAssign, okChecked, Bool.and_eq_true,
        Option.isNone_iff_eq_none] at h
      exact setChecked_ok h.1 _ _
  | message_timeout v => rfl
  | parameters v => rfl
  | pid_file v => rfl
  | plugin_dir v => rfl
  | private_data v =>
      simp only [okAssign, Bool.and_eq_true, List.all_eq_true,
        Option.isNone_iff_eq_none] at h
      exact setListChecked_ok (findSome?_none_of_all h.2) _ _ _
  | purge_event_after v =>
      simp only [okAssign, okChecked, Bool.and_eq_true,
        Option.isNone_iff_eq_none] at h
      exact setChecked_ok h.1 _ _
  | purge_job_after v =>
      simp only [okAssign, okChecked, Bool.and_eq_true,
        Option.isNone_iff_eq_none] at h
      exact setChecked_ok h.1 _ _
  | purge_resv_after v =>
      simp only [okAssign, okChecked, Bool.and_eq_true,
        Option.isNone_iff_eq_none] at h
      exact setChecked_ok h.1 _ _
  | purge_step_after v =>
      simp only [okAssign, okChecked, Bool.and_eq_true,
        Option.isNone_iff_eq_none] at h
      exact setChecked_ok h.1 _ _
  | purge_suspend_after v =>
      simp only [okAssign, okChecked, Bool.and_eq_true,
        Option.isNone_iff_eq_none] at h
      exact setChecked_ok h.1 _ _
  | purge_txn_after v =>
      simp only [okAssign, okChecked, Bool.and_eq_true,
        Option.isNone_iff_eq_none] at h
      exact setChecked_ok h.1 _ _
  | purge_usage_after v =>
      simp only [okAssign, okChecked, Bool.and_eq_true,
        Option.isNone_iff_eq_none] at h
      exact setChecked_ok h.1 _ _
  | slurm_user v => rfl
  | storage_host v => rfl
  | storage_backup_host v => rfl
  | storage_loc v => rfl
  | storage_parameters v => rfl
  | storage_pass v =>
      simp only [okAssign, okChecked, Bool.and_eq_true,
        Option.isNone_iff_eq_none] at h
      exact setChecked_ok h.1 _ _
  | storage_port v =>
      simp only [okAssign, okPort, Option.isNone_iff_eq_none] at h
      exact setPort_ok h _ _
  | storage_type v =>
      simp only [okAssign, okChecked, Bool.and_eq_true,
        Option.isNone_iff_eq_none] at h
      exact setChecked_ok h.1 _ _
  | storage_user v => rfl
  | tcp_timeout v => rfl
  | track_slurmctld_down v => cases v with
      | inl b => rfl
      | inr s => exact absurd h (by simp [okAssign, okBool])
  | track_wc_key v => cases v with
      | inl b => rfl
      | inr s => exact absurd h (by simp [okAssign, okBool])

theorem applySeq_ok {as_ : List Assign} (h : ∀ a ∈ as_, okAssign a = true) (d : Doc) :
    applySeq as_ d =
      (as_.foldl (fun st a => docInsert st (assignKey a) (canonV a)) d, none) := by
  induction as_ generalizing d with
  | nil => rfl
  | cons a as_ ih =>
      simp only [applySeq, applyAssign_ok (h a (List.mem_cons_self _ _)) d,
        List.foldl_cons]
      exact ih (fun b hb => h b (List.mem_cons_of_mem _ hb)) _

theorem joinSep_no_nl {sep : Char} (hsep : sep ≠ '\n') {xs : List Str}
    (h : ∀ x ∈ xs, '\n' ∉ x) : '\n' ∉ joinSep sep xs := by
  induction xs with
  | nil => simp [joinSep]
  | cons x xs ih =>
      cases xs with
      | nil => exact h x (List.mem_cons_self _ _)
      | cons y ys =>
          have : joinSep sep (x :: y :: ys) = x ++ sep :: joinSep sep (y :: ys) := rfl
          rw [this]
          intro hm
          rcases List.mem_append.mp hm with h1 | h2
          · exact h x (List.mem_cons_self _ _) h1
          · rcases List.mem_cons.mp h2 with h3 | h4
            · exact hsep h3.symm
            · exact ih (fun z hz => h z (List.mem_cons_of_mem _ hz)) h4

theorem intToStr_no_nl (i : Int) : '\n' ∉ intToStr i := by
  have hd := natToStr_all_digits i.natAbs
  intro hm
  unfold intToStr at hm
  by_cases hneg : i < 0
  · rw [if_pos hneg] at hm
    rcases List.mem_cons.mp hm with h1 | h2
    · exact absurd h1 (by decide)
    · exact (isDigitC_ne_special (hd _ h2)).1 rfl
  · rw [if_neg hneg] at hm
    exact (isDigitC_ne_special (hd _ hm)).1 rfl

theorem canonV_no_nl {a : Assign} (h : okAssign a = true) :
    '\n' ∉ render (canonV a) := by
  have hplain : ∀ {v : Str}, noNl v = true → '\n' ∉ (v : Str) := fun hv =>
    noNl_iff.mp hv
  have hchk : ∀ {c : Str → Option ConfErr} {v : Str},
      okChecked c v = true → '\n' ∉ v := by
    intro c v hv
    simp only [okChecked, Bool.and_eq_true] at hv
    exact noNl_iff.mp hv.2
  have hbool : ∀ {v : BV}, okBool v = true → '\n' ∉ boolToStore v := by
    intro v hv
    cases v with
    | inl b => cases b <;> decide
    | inr s => simp [okBool] at hv
  have hlist : ∀ {sep : Char}, sep ≠ '\n' → ∀ {v : LV}, okList sep v = true →
      '\n' ∉ joinSep sep (promote v) := by
    intro sep hsep v hv
    cases v with
    | inl s => simp [okList] at hv
    | inr xs =>
        simp only [okList, Bool.and_eq_true, List.all_eq_true] at hv
        refine joinSep_no_nl hsep ?_
        intro x hx
        have hx2 := hv.2 x hx
        simp only [Bool.and_eq_true] at hx2
        exact noNl_iff.mp hx2.1
  have hpairs : ∀ {v : List (Str × Str)}, okPairs v = true →
      '\n' ∉ joinSep ',' (v.map (fun pr => pr.1 ++ '=' :: pr.2)) := by
    intro v hv
    simp only [okPairs, Bool.and_eq_true, List.all_eq_true] at hv
    refine joinSep_no_nl (by decide) ?_
    intro x hx
    obtain ⟨pr, hpr, rfl⟩ := List.mem_map.mp hx
    have hpr2 := hv.2 pr hpr
    simp only [Bool.and_eq_true, okPairComp] at hpr2
    obtain ⟨h1, h2⟩ := hpr2
    intro hm
    rcases List.mem_append.mp hm with ha | hb
    · exact noNl_iff.mp h1.1.1 ha
    · rcases List.mem_cons.mp hb with h3 | h4
      · exact absurd h3 (by decide)
      · exact noNl_iff.mp h2.1.1 h4
  cases a with
  | archive_dir v => exact hplain h
  | archive_events v => exact hbool h
  | archive_jobs v => exact hbool h
  | archive_resvs v => exact hbool h
  | archive_script v => exact hplain h
  | archive_steps v => exact hbool h
  | archive_suspend v => exact hbool h
  | archive_txn v => exact hbool h
  | archive_usage v => exact hbool h
  | auth_info v => exact hplain h
  | auth_alt_types v => exact hlist (by decide) h
  | auth_alt_parameters v => exact hpairs h
  | auth_type v => exact hchk h
  | commit_delay v => exact intToStr_no_nl v
  | communication_parameters v => exact hlist (by decide) h
  | dbd_backup_host v => exact hplain h
  | dbd_addr v => exact hplain h
  | dbd_host v => exact hplain h
  | dbd_port v => exact intToStr_no_nl v
  | debug_flags v =>
      simp only [okAssign, Bool.and_eq_true] at h
      exact hlist (by decide) h.1
  | debug_level v => exact hchk h
  | debug_level_syslog v => exact hchk h
  | default_qos v => exact hplain h
  | log_file v => exact hplain h
  | log_time_format v => exact hchk h
  | max_query_time_range v => exact hchk h
  | message_timeout v => exact intToStr_no_nl v
  | parameters v => exact hlist (by decide) h
  | pid_file v => exact hplain h
  | plugin_dir v => exact hlist (by decide) h
  | private_data v =>
      simp only [okAssign, Bool.and_eq_true] at h
      exact hlist (by decide) h.1
  | purge_event_after v => exact hchk h
  | purge_job_after v => exact hchk h
  | purge_resv_after v => exact hchk h
  | purge_step_after v => exact hchk h
  | purge_suspend_after v => exact hchk h
  | purge_txn_after v => exact hchk h
  | purge_usage_after v => exact hchk h
  | slurm_user v => exact hplain h
  | storage_host v => exact hplain h
  | storage_backup_host v => exact hplain h
  | storage_loc v => exact hplain h
  | storage_parameters v => exact hpairs h
  | storage_pass v => exact hchk h
  | storage_port v => exact intToStr_no_nl v
  | storage_type v => exact hchk h
  | storage_user v => exact hplain h
  | tcp_timeout v => exact intToStr_no_nl v
  | track_slurmctld_down v => exact hbool h
  | track_wc_key v => exact hbool h

theorem getBool_lookup_true {tok : Key} {d : Doc}
    (h : docLookup d tok = some (.str (("yes").data))) : getBool tok d = some true := by
  simp [getBool, h]

theorem getBool_lookup_false {tok : Key} {d : Doc}
    (h : docLookup d tok = some (.str (("no").data))) : getBool tok d = some false := by
  simp [getBool, h]

theorem getInt_lookup {tok : Key} {d : Doc} {n : Int}
    (h : docLookup d tok = some (.str (intToStr n))) : getInt tok d = .ok (some n) := by
  simp [getInt, h, pyIntOfStr_intToStr]

theorem getList_of_ok {sep : Char} {tok : Key} {d : Doc} {xs : List Str}
    (h : docLookup d tok = some (.str (joinSep sep xs)))
    (hok : okList sep (.inr xs) = true) : getList sep tok d = .ok (some xs) := by
  simp only [okList, Bool.and_eq_true, List.all_eq_true] at hok
  have hne : xs ≠ [] := by
    intro he
    rw [he] at hok
    simp at hok
  have hfree : ∀ x ∈ xs, sep ∉ x := by
    intro x hx
    have h2 := hok.2 x hx
    simp only [Bool.and_eq_true] at h2
    exact not_any_beq.mp h2.2
  simp [getList, h, splitChar_joinSep hne hfree]

theorem pairsOfStored_join {ps : List (Str × Str)} (hok : okPairs ps = true) :
    pairsOfStored (joinSep ',' (ps.map (fun pr => pr.1 ++ '=' :: pr.2))) =
      ps.map (fun pr => [pr.1, pr.2]) := by
  simp only [okPairs, Bool.and_eq_true, List.all_eq_true] at hok
  have hcomp : ∀ pr ∈ ps, okPairComp pr.1 = true ∧ okPairComp pr.2 = true := by
    intro pr hpr
    have := hok.2 pr hpr
    simpa only [Bool.and_eq_true] using this
  have hne : ps.map (fun pr => pr.1 ++ '=' :: pr.2) ≠ [] := by
    cases ps with
    | nil => simp at hok
    | cons p pp => simp
  have hfree : ∀ x ∈ ps.map (fun pr => pr.1 ++ '=' :: pr.2), ',' ∉ x := by
    intro x hx
    obtain ⟨pr, hpr, rfl⟩ := List.mem_map.mp hx
    obtain ⟨h1, h2⟩ := hcomp pr hpr
    simp only [okPairComp, Bool.and_eq_true] at h1 h2
    intro hm
    rcases List.mem_append.mp hm with ha | hb
    · exact not_any_beq.mp h1.1.2 ha
    · rcases List.mem_cons.mp hb with h3 | h4
      · exact absurd h3 (by decide)
      · exact not_any_beq.mp h2.1.2 h4
  unfold pairsOfStored
  rw [splitChar_joinSep hne hfree, List.map_map]
  apply List.map_congr_left
  intro pr hpr
  obtain ⟨h1, h2⟩ := hcomp pr hpr
  simp only [okPairComp, Bool.and_eq_true] at h1 h2
  have hna : '=' ∉ pr.1 := not_any_beq.mp h1.2
  have hnb : '=' ∉ pr.2 := not_any_beq.mp h2.2
  simp only [Function.comp_apply]
  rw [splitChar_append pr.2 hna, splitChar_not_mem hnb]

theorem getPairs_of_ok {tok : Key} {d : Doc} {ps : List (Str × Str)}
    (h : docLookup d tok =
      some (.str (joinSep ',' (ps.map (fun pr => pr.1 ++ '=' :: pr.2)))))
    (hok : okPairs ps = true) :
    getPairs tok d = .ok (some (ps.map (fun pr => [pr.1, pr.2]))) := by
  simp [getPairs, h, pairsOfStored_join hok]

theorem storage_parameters_get_of_ok {d : Doc} {ps : List (Str × Str)}
    (h : docLookup d .StorageParameters =
      some (.str (joinSep ',' (ps.map (fun pr => pr.1 ++ '=' :: pr.2)))))
    (hok : okPairs ps = true) :
    storage_parameters_get d = .ok (ps.map (fun pr => [pr.1, pr.2])) := by
  simp [storage_parameters_get, h, pairsOfStored_join hok]

/-- C2 (amended): for every finite list of typed-setter assignments with pairwise
distinct keys, in which each value is accepted by its key's validator and is
additionally injection-free — plain string values contain no newline, boolean
keys are assigned booleans, list keys nonempty lists whose elements contain
neither the list delimiter nor a newline, parameter-list keys nonempty lists of
pairs whose components avoid `,`, `=` and newline — performing the assignments,
`dump()`, and `load()` on a fresh editor over the same path yields a document
where every set key's getter returns a value semantically equal to what was set
(the same string for plain keys, list for delimited keys, boolean for yes/no
keys, integer for port and timeout keys). -/
theorem c2_round_trip_amended (as_ : List Assign) (path ts : Str)
    (hok : ∀ a ∈ as_, okAssign a = true)
    (hnodup : (as_.map assignKey).Nodup)
    (hp : '\n' ∉ path) (hts : '\n' ∉ ts) :
    ∃ d d' : Doc,
      applySeq as_ [] = (d, none) ∧
      dumpThenLoad d path ts = (d', none) ∧
      ∀ a ∈ as_, semGot a d' := by
  have happly := applySeq_ok hok []
  rw [foldl_docInsert_fresh assignKey canonV as_ [] (fun x _ => rfl) hnodup] at happly
  simp only [List.nil_append] at happly
  have hv : ∀ kv ∈ as_.map (fun a => (assignKey a, canonV a)), '\n' ∉ render kv.2 := by
    intro kv hkv
    obtain ⟨a, ha, rfl⟩ := List.mem_map.mp hkv
    exact canonV_no_nl (hok a ha)
  have hnodup2 : ((as_.map (fun a => (assignKey a, canonV a))).map Prod.fst).Nodup := by
    rw [List.map_map]
    exact hnodup
  have hload := dumpThenLoad_ok (as_.map (fun a => (assignKey a, canonV a))) path ts
    hv hp hts hnodup2
  rw [List.map_map] at hload
  refine ⟨_, _, happly, hload, ?_⟩
  intro a ha
  have hlook := docLookup_map assignKey
    (fun x => V.str (render (canonV x))) hnodup ha
  have hoka := hok a ha
  cases a with
  | archive_dir v => exact hlook
  | archive_events v =>
      cases v with
      | inl b => cases b
                 · exact getBool_lookup_false hlook
                 · exact getBool_lookup_true hlook
      | inr s => trivial
  | archive_jobs v =>
      cases v with
      | inl b => cases b
                 · exact getBool_lookup_false hlook
                 · exact getBool_lookup_true hlook
      | inr s => trivial
  | archive_resvs v =>
      cases v with
      | inl b => cases b
                 · exact getBool_lookup_false hlook
                 · exact getBool_lookup_true hlook
      | inr s => trivial
  | archive_script v => exact hlook
  | archive_steps v =>
      cases v with
      | inl b => cases b
                 · exact getBool_lookup_false hlook
                 · exact getBool_lookup_true hlook
      | inr s => trivial
  | archive_suspend v =>
      cases v with
      | inl b => cases b
                 · exact getBool_lookup_false hlook
                 · exact getBool_lookup_true hlook
      | inr s => trivial
  | archive_txn v =>
      cases v with
      | inl b => cases b
                 · exact getBool_lookup_false hlook
                 · exact getBool_lookup_true hlook
      | inr s => trivial
  | archive_usage v =>
      cases v with
      | inl b => cases b
                 · exact getBool_lookup_false hlook
                 · exact getBool_lookup_true hlook
      | inr s => trivial
  | auth_info v => exact hlook
  | auth_alt_types v =>
      cases v with
      | inr xs => exact getList_of_ok hlook hoka
      | inl s => trivial
  | auth_alt_parameters v => exact getPairs_of_ok hlook hoka
  | auth_type v => exact hlook
  | commit_delay v => exact getInt_lookup hlook
  | communication_parameters v =>
      cases v with
      | inr xs => exact getList_of_ok hlook hoka
      | inl s => trivial
  | dbd_backup_host v => exact hlook
  | dbd_addr v => exact hlook
  | dbd_host v => exact hlook
  | dbd_port v => exact getInt_lookup hlook
  | debug_flags v =>
      cases v with
      | inr xs =>
          simp only [okAssign, Bool.and_eq_true] at hoka
          exact getList_of_ok hlook hoka.1
      | inl s => trivial
  | debug_level v => exact hlook
  | debug_level_syslog v => exact hlook
  | default_qos v => exact hlook
  | log_file v => exact hlook
  | log_time_format v => exact hlook
  | max_query_time_range v => exact hlook
  | message_timeout v => exact getInt_lookup hlook
  | parameters v =>
      cases v with
      | inr xs => exact getList_of_ok hlook hoka
      | inl s => trivial
  | pid_file v => exact hlook
  | plugin_dir v =>
      cases v with
      | inr xs => exact getList_of_ok hlook hoka
      | inl s => trivial
  | private_data v =>
      cases v with
      | inr xs =>
          simp only [okAssign, Bool.and_eq_true] at hoka
          exact getList_of_ok hlook hoka.1
      | inl s => trivial
  | purge_event_after v => exact hlook
  | purge_job_after v => exact hlook
  | purge_resv_after v => exact hlook
  | purge_step_after v => exact hlook
  | purge_suspend_after v => exact hlook
  | purge_txn_after v => exact hlook
  | purge_usage_after v => exact hlook
  | slurm_user v => exact hlook
  | storage_host v => exact hlook
  | storage_backup_host v => exact hlook
  | storage_loc v => exact hlook
  | storage_parameters v => exact storage_parameters_get_of_ok hlook hoka
  | storage_pass v => exact hlook
  | storage_port v => exact getInt_lookup hlook
  | storage_type v => exact hlook
  | storage_user v => exact hlook
  | tcp_timeout v => exact getInt_lookup hlook
  | track_slurmctld_down v =>
      cases v with
      | inl b => cases b
                 · exact getBool_lookup_false hlook
                 · exact getBool_lookup_true hlook
      | inr s => trivial
  | track_wc_key v =>
      cases v with
      | inl b => cases b
                 · exact getBool_lookup_false hlook
                 · exact getBool_lookup_true hlook
      | inr s => trivial

theorem parse_token_splitOnce {l a b : Str} (hab : splitOnceEq l = some (a, b)) :
    parse_token l =
      (match tokenOfName a with
       | some k => .ok (some (k, b))
       | none => .error (.unrecognized a)) := by
  obtain ⟨hdecomp, hna⟩ := splitOnceEq_some hab
  rw [hdecomp, parse_token, parse_token_go_entry hna [] b]
  simp

theorem scan_go_unrecognized {ls : List Str}
    (h1 : ∀ l ∈ ls, '=' ∈ l)
    (h2 : ∃ l ∈ ls, ∃ a b, splitOnceEq l = some (a, b) ∧ tokenOfName a = none)
    (store : Doc) :
    ∃ n, tokenOfName n = none ∧ scan_go store ls = .error (.unrecognized n) := by
  induction ls generalizing store with
  | nil =>
      obtain ⟨l, hl, -⟩ := h2
      cases hl
  | cons l ls ih =>
      obtain ⟨a, b, hab⟩ := splitOnceEq_isSome (h1 l (List.mem_cons_self _ _))
      have hparse := parse_token_splitOnce hab
      rcases ht : tokenOfName a with _ | k
      · refine ⟨a, ht, ?_⟩
        rw [ht] at hparse
        simp [scan_go, hparse]
      · have hbad : ∃ l' ∈ ls, ∃ a' b',
            splitOnceEq l' = some (a', b') ∧ tokenOfName a' = none := by
          obtain ⟨l', hl', a', b', hab', hna'⟩ := h2
          rcases List.mem_cons.mp hl' with rfl | hmem
          · rw [hab] at hab'
            simp only [Option.some.injEq, Prod.mk.injEq] at hab'
            rw [← hab'.1] at hna'
            rw [ht] at hna'
            cases hna'
          · exact ⟨l', hmem, a', b', hab', hna'⟩
        rw [ht] at hparse
        simp only [scan_go, hparse]
        exact ih (fun x hx => h1 x (List.mem_cons_of_mem _ hx)) hbad _

theorem scan_go_typeErr {pre : List Str} {bad : Str} (post : List Str)
    (hpre : ∀ l ∈ pre, ∃ kv, parse_token l = .ok (some kv))
    (hbad : '=' ∉ bad) (store : Doc) :
    scan_go store (pre ++ bad :: post) = .error .typeErr := by
  induction pre generalizing store with
  | nil =>
      have : parse_token bad = .ok none := parse_token_go_no_eq hbad []
      simp [scan_go, this]
  | cons l pre ih =>
      obtain ⟨⟨k, v⟩, hkv⟩ := hpre l (List.mem_cons_self _ _)
      simp only [List.cons_append, scan_go, hkv]
      exact ih (fun x hx => hpre x (List.mem_cons_of_mem _ hx)) _

theorem digitsThen_iff (s : Str) (k : Nat) : digitsThen s k = true ↔ lcount s = k := by
  induction s generalizing k with
  | nil => cases k <;> simp [digitsThen, lcount]
  | cons c cs ih =>
      cases k with
      | zero =>
          by_cases hc : isDigitC c <;>
            simp [digitsThen, lcount, hc]
      | succ k =>
          by_cases hc : isDigitC c
          · have hL : digitsThen (c :: cs) (k + 1) = digitsThen cs k := by
              simp [digitsThen, hc]
            have hR : lcount (c :: cs) = lcount cs + 1 := by
              simp [lcount, hc]
            rw [hL, hR, ih k]
            constructor <;> omega
          · simp [digitsThen, lcount, hc]

theorem match_port_num_iff (s : Str) :
    match_port_num s = true ↔ 1 ≤ lcount s ∧ lcount s ≤ 5 := by
  simp only [match_port_num, List.any_eq_true]
  constructor
  · rintro ⟨k, hk, hdt⟩
    have := (digitsThen_iff s k).mp hdt
    simp only [List.mem_cons, List.not_mem_nil, or_false] at hk
    omega
  · rintro ⟨h1, h5⟩
    refine ⟨lcount s, ?_, (digitsThen_iff s _).mpr rfl⟩
    simp only [List.mem_cons, List.not_mem_nil, or_false]
    omega

theorem ite_check_invalid {b : Bool}
    (h : (if b then (none : Option ConfErr) else some .invalidValue).isSome = true) :
    (if b then (none : Option ConfErr) else some .invalidValue) =
      some ConfErr.invalidValue := by
  cases b <;> simp_all

theorem ite_check_invalid_rev {b : Bool}
    (h : (if b then some ConfErr.invalidValue else (none : Option ConfErr)).isSome =
      true) :
    (if b then some ConfErr.invalidValue else (none : Option ConfErr)) =
      some ConfErr.invalidValue := by
  cases b <;> simp_all

theorem findSome?_invalid {f : Str → Option ConfErr}
    (hf : ∀ x, f x = none ∨ f x = some .invalidValue) {l : List Str}
    (h : (l.findSome? f).isSome = true) : l.findSome? f = some .invalidValue := by
  induction l with
  | nil => simp [List.findSome?] at h
  | cons x xs ih =>
      rcases hf x with hx | hx
      · rw [List.findSome?_cons, hx] at h ⊢
        exact ih h
      · rw [List.findSome?_cons, hx] at h ⊢

theorem setChecked_err {check : Str → Option ConfErr} {v : Str}
    (h : check v = some ConfErr.invalidValue) (tok : Key) (d : Doc) :
    setChecked check tok d v = (d, some .invalidValue) := by
  simp [setChecked, h]

theorem setPort_err {n : Int} (h : check_port_num (.int n) = some ConfErr.invalidValue)
    (tok : Key) (d : Doc) : setPort tok d n = (d, some .invalidValue) := by
  simp [setPort, h]

theorem setBool_err {v : BV} (h : (check_bool v).isSome = true) (tok : Key) (d : Doc) :
    setBool tok d v = (d, some .invalidValue) := by
  cases v with
  | inl b => simp [check_bool] at h
  | inr s =>
      have hc := ite_check_invalid (b := headAlt boolAlts s) h
      simp only [setBool, check_bool, check_bool_str] at *
      rw [hc]

theorem setListChecked_err {check : Str → Option ConfErr} {v : LV}
    (hf : ∀ x, check x = none ∨ check x = some .invalidValue)
    (h : ((promote v).findSome? check).isSome = true) (sep : Char) (tok : Key)
    (d : Doc) : setListChecked check sep tok d v = (d, some .invalidValue) := by
  have hc := findSome?_invalid hf h
  simp [setListChecked, hc]

theorem check_debug_flag_shape (x : Str) :
    check_debug_flag x = none ∨ check_debug_flag x = some .invalidValue := by
  unfold check_debug_flag
  by_cases hb : headAlt debugFlagAlts x = true <;> simp [hb]

theorem check_private_data_shape (x : Str) :
    check_private_data x = none ∨ check_private_data x = some .invalidValue := by
  unfold check_private_data
  by_cases hb : headAlt privateDataAlts x = true <;> simp [hb]

theorem nonCommentLines_entry {k : Key} {v : Str} (hv : '\n' ∉ v) :
    nonCommentLines (entryLine (k, .str v)) = [entryLine (k, .str v)] := by
  have hnl : '\n' ∉ entryLine (k, .str v) := entryLine_no_nl hv
  rw [nonCommentLines, splitChar_not_mem hnl]
  simp [List.filter_cons, entryLine_keep]

/-- C4: for every key that has a validator and every value rejected by that
validator, the typed setter raises `InvalidValueError` (the editor's `Error`)
and returns the document unchanged, so the rejected key's getter — and every
other key's getter — afterwards sees exactly the prior document. -/
theorem c4_validator_rejection (a : Assign) (d : Doc) (h : rejects a = true) :
    applyAssign a d = (d, some ConfErr.invalidValue) := by
  cases a with
  | archive_dir v => simp [rejects] at h
  | archive_events v => exact setBool_err h _ _
  | archive_jobs v => exact setBool_err h _ _
  | archive_resvs v => exact setBool_err h _ _
  | archive_script v => simp [rejects] at h
  | archive_steps v => exact setBool_err h _ _
  | archive_suspend v => exact setBool_err h _ _
  | archive_txn v => simp [rejects] at h
  | archive_usage v => exact setBool_err h _ _
  | auth_info v => simp [rejects] at h
  | auth_alt_types v => simp [rejects] at h
  | auth_alt_parameters v => simp [rejects] at h
  | auth_type v => exact setChecked_err (ite_check_invalid h) _ _
  | commit_delay v => simp [rejects] at h
  | communication_parameters v => simp [rejects] at h
  | dbd_backup_host v => simp [rejects] at h
  | dbd_addr v => simp [rejects] at h
  | dbd_host v => simp [rejects] at h
  | dbd_port v => exact setPort_err (ite_check_invalid h) _ _
  | debug_flags v => exact setListChecked_err check_debug_flag_shape h _ _ _
  | debug_level v => exact setChecked_err (ite_check_invalid h) _ _
  | debug_level_syslog v => exact setChecked_err (ite_check_invalid h) _ _
  | default_qos v => simp [rejects] at h
  | log_file v => simp [rejects] at h
  | log_time_format v => exact setChecked_err (ite_check_invalid h) _ _
  | max_query_time_range v => exact setChecked_err (ite_check_invalid h) _ _
  | message_timeout v => simp [rejects] at h
  | parameters v => simp [rejects] at h
  | pid_file v => simp [rejects] at h
  | plugin_dir v => simp [rejects] at h
  | private_data v => exact setListChecked_err check_private_data_shape h _ _ _
  | purge_event_after v => exact setChecked_err (ite_check_invalid h) _ _
  | purge_job_after v => exact setChecked_err (ite_check_invalid h) _ _
  | purge_resv_after v => exact setChecked_err (ite_check_invalid h) _ _
  | purge_step_after v => exact setChecked_err (ite_check_invalid h) _ _
  | purge_suspend_after v => exact setChecked_err (ite_check_invalid h) _ _
  | purge_txn_after v => exact setChecked_err (ite_check_invalid h) _ _
  | purge_usage_after v => exact setChecked_err (ite_check_invalid h) _ _
  | slurm_user v => simp [rejects] at h
  | storage_host v => simp [rejects] at h
  | storage_backup_host v => simp [rejects] at h
  | storage_loc v => simp [rejects] at h
  | storage_parameters v => simp [rejects] at h
  | storage_pass v => exact setChecked_err (ite_check_invalid_rev h) _ _
  | storage_port v => exact setPort_err (ite_check_invalid h) _ _
  | storage_type v => exact setChecked_err (ite_check_invalid h) _ _
  | storage_user v => simp [rejects] at h
  | tcp_timeout v => simp [rejects] at h
  | track_slurmctld_down v => exact setBool_err h _ _
  | track_wc_key v => exact setBool_err h _ _

/-- C4 witness: the setter of `debug_level` rejects `"nonsense"` and leaves a
document holding a storage password untouched. -/
theorem c4_validator_rejection_witness :
    rejects (.debug_level (("nonsense").data)) = true ∧
      applyAssign (.debug_level (("nonsense").data))
          [(Key.StoragePass, V.str (("secret").data))] =
        ([(Key.StoragePass, V.str (("secret").data))], some ConfErr.invalidValue) :=
  ⟨by decide,
   c4_validator_rejection (.debug_level (("nonsense").data))
     [(Key.StoragePass, V.str (("secret").data))] (by decide)⟩

/-- C1 (divergence witness): on the spec's own example — prior file `# header`,
`FOO=bar`, `BAZ=qux` and changes `{baz: new, added: 1}` — `set_environment_var`
produces only `BAZ=new`, `ADDED=1`: opening with mode `w+` truncates the file
before `readlines()`, so no existing line is preserved.  The line-rewriting loop
itself (`updateDefaultsLines`, fed the prior lines as the code's own unit tests
do through `mock_open`) produces exactly the claimed output, confirming the
claim describes the intended behaviour and the `w+` open mode is the slip. -/
theorem c1_env_defaults_truncation :
    set_environment_var
        [("# header").data, ("FOO=bar").data, ("BAZ=qux").data]
        [(("baz").data, some (("new").data)), (("added").data, some (("1").data))] =
      [("BAZ=new").data, ("ADDED=1").data] ∧
    set_environment_var
        [("# header").data, ("FOO=bar").data, ("BAZ=qux").data]
        [(("baz").data, some (("new").data)), (("added").data, some (("1").data))] ≠
      [("# header").data, ("FOO=bar").data, ("BAZ=new").data, ("ADDED=1").data] ∧
    updateDefaultsLines
        [("# header").data, ("FOO=bar").data, ("BAZ=qux").data]
        [(("baz").data, some (("new").data)), (("added").data, some (("1").data))] =
      [("# header").data, ("FOO=bar").data, ("BAZ=new").data, ("ADDED=1").data] := by
  refine ⟨by decide, by decide, by decide⟩

/-- C5 (divergence witness): a deletion request (`None` value) for a key that
matches no existing line is appended as the literal line `BAZ=None` — the
trailing append loop of `set_environment_var` / `_update_defaults` renders the
`None` through the f-string instead of skipping it.  This happens both in the
actual function (where, due to the `w+` truncation, no key ever matches) and in
the line-rewriting loop itself fed the prior lines. -/
theorem c5_unset_append :
    set_environment_var [("# header").data, ("FOO=bar").data]
        [(("baz").data, none)] =
      [("BAZ=None").data] ∧
    updateDefaultsLines [("# header").data, ("FOO=bar").data]
        [(("baz").data, none)] =
      [("# header").data, ("FOO=bar").data, ("BAZ=None").data] := by
  refine ⟨by decide, by decide⟩

/-- C2 counterexample: `parameters` has no validator, so the assignment
`parameters = ["a,b"]` is accepted as-is, but after `dump()` and a fresh
`load()` the getter splits the stored string on every comma and returns
`["a", "b"]`, not the list `["a,b"]` that was set. -/
theorem c2_counterexample :
    applySeq [.parameters (.inr [("a,b").data])] [] =
      ([(Key.Parameters, V.str (("a,b").data))], none) ∧
    parameters_get
        (dumpThenLoad [(Key.Parameters, V.str (("a,b").data))]
          (("p").data) (("t").data)).1 =
      .ok (some [("a").data, ("b").data]) ∧
    [("a").data, ("b").data] ≠ [("a,b").data] := by
  refine ⟨by decide, by rfl, by decide⟩

/-- C2 witness: a concrete run over one key of each class — plain string,
port, boolean, comma list, validated enum — round-trips through
`dump()`/`load()`. -/
theorem c2_round_trip_witness :
    (∀ a ∈ ([.storage_host (("127.0.0.1").data), .dbd_port 3306,
        .archive_events (.inl true), .parameters (.inr [("a").data, ("b").data]),
        .debug_level (("info").data)] : List Assign), okAssign a = true) ∧
    (([.storage_host (("127.0.0.1").data), .dbd_port 3306,
        .archive_events (.inl true), .parameters (.inr [("a").data, ("b").data]),
        .debug_level (("info").data)] : List Assign).map assignKey).Nodup ∧
    (∃ d d' : Doc,
      applySeq [.storage_host (("127.0.0.1").data), .dbd_port 3306,
        .archive_events (.inl true), .parameters (.inr [("a").data, ("b").data]),
        .debug_level (("info").data)] [] = (d, none) ∧
      dumpThenLoad d (("/etc/slurmdbd.conf").data) (("now").data) = (d', none) ∧
      ∀ a ∈ ([.storage_host (("127.0.0.1").data), .dbd_port 3306,
        .archive_events (.inl true), .parameters (.inr [("a").data, ("b").data]),
        .debug_level (("info").data)] : List Assign), semGot a d') :=
  ⟨by decide, by decide,
   c2_round_trip_amended
     [.storage_host (("127.0.0.1").data), .dbd_port 3306,
      .archive_events (.inl true), .parameters (.inr [("a").data, ("b").data]),
      .debug_level (("info").data)]
     (("/etc/slurmdbd.conf").data) (("now").data)
     (by decide) (by decide) (by decide) (by decide)⟩

/-- C3 counterexample: the file `foo` + newline + `NotAKey=1` has a non-comment
`key=value` line whose key is outside the vocabulary, yet `load()` does not
raise the editor's declared parse `Error`: the earlier `=`-less line makes
`_parse_token` return `None` first and `dict.update(None)` raises the builtin
`TypeError`.  The document is still left unchanged. -/
theorem c3_counterexample :
    (∃ l ∈ nonCommentLines (("foo\nNotAKey=1").data), ∃ a b,
      splitOnceEq l = some (a, b) ∧ tokenOfName a = none) ∧
    loadRun (("foo\nNotAKey=1").data) [] = ([], some ConfErr.typeErr) ∧
    ConfErr.typeErr.isEditorError = false :=
  ⟨⟨("NotAKey=1").data, by decide, ("NotAKey").data, ("1").data, by decide,
    by decide⟩,
   by decide, by decide⟩

/-- C3 (amended): for every file all of whose non-comment lines contain `=` and
none of whose keys is `mro` or begins with an underscore — the names on which
Python's `hasattr` also finds attributes inherited on the enum class, so that
the membership model of `hasattr` is exact — if some line's key is outside the
closed token vocabulary, `load()` raises the editor's parse `Error` for an
unrecognized key and leaves the in-memory document exactly in its pre-load
state (no partial population).  Outside the shape hypothesis the error is not
raised at all: a key such as `mro` passes `hasattr` and `load()` stores the
fetched attribute object without complaint. -/
theorem c3_unrecognized_amended (content : Str) (doc : Doc)
    (h1 : ∀ l ∈ nonCommentLines content, '=' ∈ l)
    (_hshape : ∀ l ∈ nonCommentLines content, lineKeyShapeOk l = true)
    (h2 : ∃ l ∈ nonCommentLines content, ∃ a b,
      splitOnceEq l = some (a, b) ∧ tokenOfName a = none) :
    ∃ n, tokenOfName n = none ∧
      loadRun content doc = (doc, some (ConfErr.unrecognized n)) ∧
      (ConfErr.unrecognized n).isEditorError = true := by
  obtain ⟨n, hn, hscan⟩ := scan_go_unrecognized h1 h2 []
  refine ⟨n, hn, ?_, rfl⟩
  unfold loadRun scan
  rw [hscan]

/-- C3 witness: loading `NotAKey=1` — its key neither a member, nor `mro`, nor
underscore-prefixed — over a nonempty document raises the parse error and keeps
the document. -/
theorem c3_unrecognized_witness :
    ((∀ l ∈ nonCommentLines (("NotAKey=1").data), '=' ∈ l) ∧
      (∀ l ∈ nonCommentLines (("NotAKey=1").data), lineKeyShapeOk l = true)) ∧
    (∃ n, tokenOfName n = none ∧
      loadRun (("NotAKey=1").data) [(Key.DbdHost, V.str (("z").data))] =
        ([(Key.DbdHost, V.str (("z").data))], some (ConfErr.unrecognized n)) ∧
      (ConfErr.unrecognized n).isEditorError = true) :=
  ⟨⟨by decide, by decide⟩,
   c3_unrecognized_amended (("NotAKey=1").data) [(Key.DbdHost, V.str (("z").data))]
     (by decide) (by decide)
     ⟨("NotAKey=1").data, by decide, ("NotAKey").data, ("1").data, by decide,
      by decide⟩⟩

/-- C6 counterexample: `_check_port_num` accepts `"123abc"`, whose string form is
not a string of 1–5 decimal digits — `re.match` is not anchored at the end, so a
digit prefix followed by a non-digit suffices. -/
theorem c6_counterexample :
    check_port_num (.str (("123abc").data)) = none ∧
    (("123abc").data).all isDigitC = false := by
  refine ⟨by decide, by decide⟩

/-- C6 (amended): `_check_port_num` accepts an input exactly when the string form
of the input begins with a run of one to five decimal digits that is not
followed by a further digit; in particular every 1–5 digit string is accepted
and every string with no leading digit or with six or more leading digits is
rejected, but digit-prefixed strings such as `123abc` are also accepted. -/
theorem c6_port_validator_amended (v : V) :
    check_port_num v = none ↔
      1 ≤ lcount (render v) ∧ lcount (render v) ≤ 5 := by
  constructor
  · intro h
    by_cases hm : match_port_num (render v) = true
    · exact (match_port_num_iff _).mp hm
    · unfold check_port_num at h
      rw [if_neg hm] at h
      cases h
  · intro h
    have hm := (match_port_num_iff _).mpr h
    unfold check_port_num
    rw [if_pos hm]

/-- C6 witness: the characterization evaluates concretely — `"80"` has a leading
digit run of length two, so the validator accepts it. -/
theorem c6_port_validator_witness :
    (1 ≤ lcount (render (.str (("80").data))) ∧
      lcount (render (.str (("80").data))) ≤ 5) ∧
    check_port_num (.str (("80").data)) = none :=
  ⟨by decide, (c6_port_validator_amended (.str (("80").data))).mpr (by decide)⟩

/-- C7 counterexample: a document state whose stored value contains a newline
(`StorageHost = "a\nb"`, reachable since `storage_host` has no validator) dumps
to a five-line file, not the three-line banner plus one line per entry (which
would be four lines) that the claim asserts for every document state. -/
theorem c7_counterexample :
    (linesOf (dumpContent [(Key.StorageHost, V.str (("a\nb").data))]
        (("p").data) (("t").data))).length = 5 ∧
    3 + ([(Key.StorageHost, V.str (("a\nb").data))] : Doc).length ≠ 5 := by
  refine ⟨by decide, by decide⟩

/-- C7 (amended): provided every stored value (and the path and timestamp) is
newline-free, `dump()` replaces the file content with exactly the three-line
banner followed by one `Key=Value` line per entry in document order, with no
blank lines; an empty document still yields the banner-only file. -/
theorem c7_dump_amended (doc : Doc) (path ts : Str)
    (hv : ∀ kv ∈ doc, '\n' ∉ render kv.2) (hp : '\n' ∉ path) (hts : '\n' ∉ ts) :
    linesOf (dumpContent doc path ts) = bannerLines path ts ++ doc.map entryLine ∧
    (∀ l ∈ linesOf (dumpContent doc path ts), l ≠ []) ∧
    (doc = [] → linesOf (dumpContent doc path ts) = bannerLines path ts) := by
  have hsplit := splitChar_joinNl (dump_lines_no_nl doc path ts hv hp hts)
  have hlines : linesOf (dumpContent doc path ts) =
      bannerLines path ts ++ doc.map entryLine := by
    rw [dumpContent_eq]
    unfold linesOf
    rw [hsplit, if_pos (List.getLast?_concat _), List.dropLast_concat]
  refine ⟨hlines, ?_, fun hd => by rw [hlines, hd]; simp⟩
  intro l hl
  rw [hlines] at hl
  rcases List.mem_append.mp hl with hb | he
  · simp only [bannerLines, List.mem_cons, List.not_mem_nil, or_false] at hb
    rcases hb with rfl | rfl | rfl
    · decide
    · simp
    · decide
  · obtain ⟨kv, hkv, rfl⟩ := List.mem_map.mp he
    simp [entryLine]

/-- C7 witness: dumping the one-entry document `DbdHost=h` to path `p` at time
`t` yields exactly the banner and the entry line. -/
theorem c7_dump_witness :
    (∀ kv ∈ ([(Key.DbdHost, V.str (("h").data))] : Doc), '\n' ∉ render kv.2) ∧
    (linesOf (dumpContent [(Key.DbdHost, V.str (("h").data))]
        (("p").data) (("t").data)) =
      bannerLines (("p").data) (("t").data) ++
        ([(Key.DbdHost, V.str (("h").data))] : Doc).map entryLine ∧
    (∀ l ∈ linesOf (dumpContent [(Key.DbdHost, V.str (("h").data))]
        (("p").data) (("t").data)), l ≠ []) ∧
    (([(Key.DbdHost, V.str (("h").data))] : Doc) = [] →
      linesOf (dumpContent [(Key.DbdHost, V.str (("h").data))]
        (("p").data) (("t").data)) = bannerLines (("p").data) (("t").data))) :=
  ⟨by decide,
   c7_dump_amended [(Key.DbdHost, V.str (("h").data))] (("p").data) (("t").data)
     (by decide) (by decide) (by decide)⟩

/-- C8: every typed deleter is `del self._metadata[tok]`: when the key is present
it removes exactly that entry — afterwards that key is absent and every other
key's value is unchanged — and when the key is absent it raises the builtin
`KeyError` (the spec's `KeyNotPresentError`) rather than acting as a no-op. -/
theorem c8_deleter_strict (tok : Key) (d : Doc) :
    (docHasKey d tok = true →
      tokenDelete tok d = (docErase d tok, none) ∧
      docLookup (docErase d tok) tok = none ∧
      ∀ k, k ≠ tok → docLookup (docErase d tok) k = docLookup d k) ∧
    (docHasKey d tok = false → tokenDelete tok d = (d, some ConfErr.keyErr)) := by
  constructor
  · intro h
    exact ⟨by simp [tokenDelete, h], docLookup_erase_self d tok,
      fun k hk => docLookup_erase_ne d hk⟩
  · intro h
    simp [tokenDelete, h]

/-- C8 witness: deleting `ArchiveDir` from a two-entry document removes only it;
deleting it from the empty document raises `KeyError`. -/
theorem c8_deleter_strict_witness :
    (docHasKey [(Key.ArchiveDir, V.str (("x").data)),
        (Key.DbdHost, V.str (("y").data))] Key.ArchiveDir = true ∧
      tokenDelete Key.ArchiveDir
          [(Key.ArchiveDir, V.str (("x").data)), (Key.DbdHost, V.str (("y").data))] =
        ([(Key.DbdHost, V.str (("y").data))], none)) ∧
    (docHasKey ([] : Doc) Key.ArchiveDir = false ∧
      tokenDelete Key.ArchiveDir [] = ([], some ConfErr.keyErr)) :=
  ⟨⟨by decide,
    ((c8_deleter_strict Key.ArchiveDir
      [(Key.ArchiveDir, V.str (("x").data)), (Key.DbdHost, V.str (("y").data))]).1
      (by decide)).1⟩,
   ⟨by decide, (c8_deleter_strict Key.ArchiveDir []).2 (by decide)⟩⟩

/-- C9 counterexample: the claim's universal part fails: the file
`NotAKey=1` + newline + `foo` contains a non-comment, non-blank line without
`=`, yet `load()` fails with the editor's own declared parse `Error` (raised
for `NotAKey` before the scanner reaches `foo`), not with a different
exception. -/
theorem c9_counterexample :
    (("foo").data ∈ nonCommentLines (("NotAKey=1\nfoo").data) ∧
      '=' ∉ (("foo").data)) ∧
    loadRun (("NotAKey=1\nfoo").data) [] =
      ([], some (ConfErr.unrecognized (("NotAKey").data))) ∧
    (ConfErr.unrecognized (("NotAKey").data)).isEditorError = true := by
  refine ⟨⟨by decide, by decide⟩, by decide, by decide⟩

/-- C9 (amended): `_parse_token` on any input without `=` consumes every
character and produces Python `None`; consequently, when the lines before the
first `=`-less non-comment line all parse successfully, `load()` fails with the
builtin `TypeError` from `dict.update(None)` — not the editor's declared parse
`Error` — and the document is left unchanged. -/
theorem c9_no_eq_amended :
    (∀ s : Str, '=' ∉ s → parse_token s = .ok none) ∧
    (∀ (content : Str) (doc : Doc) (pre : List Str) (bad : Str) (post : List Str),
      nonCommentLines content = pre ++ bad :: post →
      (∀ l ∈ pre, ∃ kv, parse_token l = .ok (some kv)) →
      '=' ∉ bad →
      loadRun content doc = (doc, some ConfErr.typeErr) ∧
      ConfErr.typeErr.isEditorError = false) := by
  constructor
  · intro s hs
    exact parse_token_go_no_eq hs []
  · intro content doc pre bad post hsplit hpre hbad
    refine ⟨?_, rfl⟩
    unfold loadRun scan
    rw [hsplit, scan_go_typeErr post hpre hbad []]

/-- C9 witness: `foo` parses to `None`, and loading `DbdHost=a` + newline +
`foo` fails with the `TypeError` outcome while keeping the document. -/
theorem c9_no_eq_witness :
    ('=' ∉ (("foo").data) ∧ parse_token (("foo").data) = .ok none) ∧
    (nonCommentLines (("DbdHost=a\nfoo").data) =
        [("DbdHost=a").data] ++ ("foo").data :: [] ∧
      loadRun (("DbdHost=a\nfoo").data) [] = ([], some ConfErr.typeErr)) :=
  ⟨⟨by decide, c9_no_eq_amended.1 (("foo").data) (by decide)⟩,
   ⟨by decide,
    (c9_no_eq_amended.2 (("DbdHost=a\nfoo").data) [] [("DbdHost=a").data]
      (("foo").data) [] (by decide)
      (by
        intro l hl
        simp only [List.mem_singleton] at hl
        subst hl
        exact ⟨(Key.DbdHost, ("a").data), rfl⟩)
      (by decide)).1⟩⟩

/-- C10: in `_confeditor.py` the scanner's `_result_store={}` default dict is
shared across `load()` calls, so the loads accumulate: loading a file holding
only key `a` and then a file holding only key `b` leaves a document (and shared
store) containing both entries, not only `b`. -/
theorem c10_legacy_shared_store (a b : Key) (va vb : Str) (m0 : Doc)
    (hab : a ≠ b) (hva : '\n' ∉ va) (hvb : '\n' ∉ vb) :
    Legacy.load (entryLine (a, .str va)) [] m0 =
      (([(a, V.str va)], [(a, V.str va)]), none) ∧
    Legacy.load (entryLine (b, .str vb)) [(a, V.str va)] [(a, V.str va)] =
      (([(a, V.str va), (b, V.str vb)], [(a, V.str va), (b, V.str vb)]), none) ∧
    docLookup [(a, V.str va), (b, V.str vb)] a = some (V.str va) ∧
    docLookup [(a, V.str va), (b, V.str vb)] b = some (V.str vb) := by
  refine ⟨?_, ?_, ?_, ?_⟩
  · unfold Legacy.load
    rw [nonCommentLines_entry hva]
    simp [Legacy.scanShared, parse_entryLine, docInsert, render]
  · unfold Legacy.load
    rw [nonCommentLines_entry hvb]
    simp [Legacy.scanShared, parse_entryLine, docInsert, hab, render]
  · simp [docLookup]
  · simp [docLookup, hab]

/-- C10 witness: loading `DbdHost=x` then `DbdPort=1` through the shared store
leaves both keys in the resulting document. -/
theorem c10_legacy_shared_store_witness :
    (Key.DbdHost ≠ Key.DbdPort ∧ '\n' ∉ (("x").data) ∧ '\n' ∉ (("1").data)) ∧
    (Legacy.load (entryLine (Key.DbdHost, .str (("x").data))) [] [] =
        (([(Key.DbdHost, V.str (("x").data))], [(Key.DbdHost, V.str (("x").data))]),
          none) ∧
      Legacy.load (entryLine (Key.DbdPort, .str (("1").data)))
          [(Key.DbdHost, V.str (("x").data))] [(Key.DbdHost, V.str (("x").data))] =
        (([(Key.DbdHost, V.str (("x").data)), (Key.DbdPort, V.str (("1").data))],
          [(Key.DbdHost, V.str (("x").data)), (Key.DbdPort, V.str (("1").data))]),
          none) ∧
      docLookup [(Key.DbdHost, V.str (("x").data)), (Key.DbdPort, V.str (("1").data))]
          Key.DbdHost = some (V.str (("x").data)) ∧
      docLookup [(Key.DbdHost, V.str (("x").data)), (Key.DbdPort, V.str (("1").data))]
          Key.DbdPort = some (V.str (("1").data))) :=
  ⟨⟨by decide, by decide, by decide⟩,
   c10_legacy_shared_store Key.DbdHost Key.DbdPort (("x").data) (("1").data) []
     (by decide) (by decide) (by decide)⟩

end Slurmdbd
